import Mathlib

set_option linter.unusedVariables false

/- Shallow embedding of the Loggy logging library (src/loggy.hpp, with the legacy
   variant src/Loggy.h embedded separately in namespace LoggyH).

   Machine integers of the source are modelled as Nat (sizes, counters) and Int
   (the source line number).  The filesystem is a partial map from path strings
   to file contents; the open ofstream is modelled by a Bool flag plus writes to
   the content at the logger's path.  Wall-clock time and the thread id enter
   as oracle strings (the rendered strftime output and the rendered thread id),
   since both are environment inputs.  Filesystem calls that take a
   std::error_code are given a success oracle; a failed call is a no-op, as in
   the source, which ignores the error code. -/

inductive LogLevel where
  | DEBUG
  | INFO
  | WARN
  | ERR
  | FATAL
  deriving DecidableEq, Repr

def LogLevel.toNat : LogLevel → Nat
  | .DEBUG => 0
  | .INFO => 1
  | .WARN => 2
  | .ERR => 3
  | .FATAL => 4

/- The filesystem: path -> content of the file at that path, none if absent. -/
def FS : Type := String → Option String

def FS.write (fs : FS) (p : String) (c : Option String) : FS :=
  fun q => if q = p then c else fs q

def emptyFS : FS := fun _ => none

def fsExists (fs : FS) (p : String) : Bool := (fs p).isSome

def fsSize (fs : FS) (p : String) : Nat := ((fs p).getD "").length

/- A write through an open stream appends to the file at the given path. -/
def appendToFile (fs : FS) (p : String) (s : String) : FS :=
  fs.write p (some ((fs p).getD "" ++ s))

/- Observable sink activity of one submission.  A handler invocation carries
   the events produced by any log calls the handler itself made, and whether
   the handler raised (the exception is caught by the logger either way). -/
inductive SinkEvent where
  | handlerCall (line : String) (nested : List SinkEvent) (raised : Bool)
  | consoleWrite (text : String)
  | fileWrite (text : String)

def SinkEvent.isHandlerCall : SinkEvent → Bool
  | SinkEvent.handlerCall _ _ _ => true
  | _ => false

def consoleLines (evts : List SinkEvent) : List String :=
  evts.filterMap fun e =>
    match e with
    | SinkEvent.consoleWrite s => some s
    | _ => none

def fileLines (evts : List SinkEvent) : List String :=
  evts.filterMap fun e =>
    match e with
    | SinkEvent.fileWrite s => some s
    | _ => none

def handlerLines (evts : List SinkEvent) : List String :=
  evts.filterMap fun e =>
    match e with
    | SinkEvent.handlerCall s _ _ => some s
    | _ => none

/- The compile-time configuration macros of loggy.hpp. -/
structure CompileCfg where
  maxLogFileSize : Nat
  rotateBackups : Nat
  checkInterval : Nat
  minLevel : Nat
  deriving DecidableEq, Repr

/- LOGGY_MAX_LOG_FILE_SIZE = 5 MiB, LOGGY_ROTATE_BACKUPS = 3,
   LOGGY_CHECK_INTERVAL = 200, LOGGY_MIN_LEVEL = 0. -/
def defaultCompileCfg : CompileCfg := ⟨5 * 1024 * 1024, 3, 200, 0⟩

/- loggy.hpp line 59: static_cast of lvl to int is at least LOGGY_MIN_LEVEL. -/
def loggy_enabled (cfg : CompileCfg) (lvl : LogLevel) : Bool :=
  decide (cfg.minLevel ≤ lvl.toNat)

namespace Logger

/- One log call performed by the user handler from inside its invocation:
   arguments to Logger::log plus the time/thread oracles of that call. -/
structure NestedCall where
  level : LogLevel
  origin : String
  msg : String
  ts : String
  tid : String

/- The mutable state of the Logger singleton (loggy.hpp lines 183-198).
   m_inHandler is the thread-local reentrancy flag; the handler is modelled by
   the nested log calls it performs on the line it receives. -/
structure LoggerState where
  logFileOpen : Bool
  logFilePath : String
  lineCount : Nat
  runtimeMinLvl : LogLevel
  consoleOutput : Bool
  fileOutput : Bool
  autoFlush : Bool
  includeThreadId : Bool
  timeFormat : String
  customHandler : Option (String → List NestedCall)
  inHandler : Bool

/- A default-constructed Logger: no file open, empty path, member initializers
   of loggy.hpp lines 185-198, thread-local m_inHandler = false. -/
def initLogger : LoggerState where
  logFileOpen := false
  logFilePath := ""
  lineCount := 0
  runtimeMinLvl := LogLevel.DEBUG
  consoleOutput := true
  fileOutput := true
  autoFlush := false
  includeThreadId := true
  timeFormat := "%Y-%m-%d %H:%M:%S"
  customHandler := none
  inHandler := false

/- Success oracles for the std::error_code based filesystem calls and for
   reopening the stream; the source ignores all of these errors. -/
structure FsOracle where
  sizeOk : Bool
  removeOk : String → Bool
  renameOk : String → Bool
  reopenOk : Bool

def allOk : FsOracle := ⟨true, fun _ => true, fun _ => true, true⟩

/- std::filesystem::remove(p, ec): on error nothing happens. -/
def fsRemove (orc : FsOracle) (p : String) (fs : FS) : FS :=
  if orc.removeOk p then fs.write p none else fs

/- std::filesystem::rename(src, dst, ec): moves the file when src exists and
   the call succeeds, otherwise ec is set and nothing happens. -/
def fsRename (orc : FsOracle) (src dst : String) (fs : FS) : FS :=
  match fs src with
  | some c => if orc.renameOk src then (fs.write src none).write dst (some c) else fs
  | none => fs

/- Backup file name: path + "." + std::to_string(i). -/
def backupName (p : String) (i : Nat) : String :=
  p ++ "." ++ toString i

/- levelToStr, loggy.hpp lines 323-332. -/
def levelToStr : LogLevel → String
  | LogLevel.DEBUG => "DEBUG"
  | LogLevel.INFO => "INFO"
  | LogLevel.WARN => "WARN"
  | LogLevel.ERR => "ERROR"
  | LogLevel.FATAL => "FATAL"

/- The null-and-emptiness check the formatter applies to C strings
   (func and *func, file and *file). -/
def cstrPresent : Option String → Bool
  | some s => !s.isEmpty
  | none => false

/- formatLine, loggy.hpp lines 260-321, written as the sequence of stream
   appends of the ostringstream fallback (the std::format path produces the
   identical string).  ts is the rendered std::put_time output and tid the
   rendered thread id, both environment inputs. -/
def formatLine (level : LogLevel) (func fileArg : Option String) (line : Int)
    (msg : String) (includeTid : Bool) (ts tid : String) : String :=
  let oss0 := ts ++ " [" ++ levelToStr level ++ "]"
  let oss1 := if includeTid then oss0 ++ " [T:" ++ tid ++ "]" else oss0
  let oss2 :=
    if cstrPresent fileArg then
      oss1 ++ " [" ++ fileArg.getD "" ++ ":" ++ toString line ++ "]"
    else oss1
  let oss3 := if cstrPresent func then oss2 ++ " " ++ func.getD "" ++ " -> " else oss2 ++ " "
  oss3 ++ msg

/- openLogFile, loggy.hpp lines 368-376.  Opening an already-open ofstream
   fails (failbit) and leaves the previous file attached; otherwise the open
   succeeds when the oracle says so, truncating (mode std::ios::out) or
   appending.  m_lineCount is reset in every case. -/
def openLogFile (truncate : Bool) (ok : Bool) (st : LoggerState) (fs : FS) :
    LoggerState × FS :=
  if st.logFileOpen then
    ({ st with lineCount := 0 }, fs)
  else if ok then
    ({ st with logFileOpen := true, lineCount := 0 },
      fs.write st.logFilePath (some (if truncate then "" else (fs st.logFilePath).getD "")))
  else
    ({ st with lineCount := 0 }, fs)

/- One iteration of the backup shift (loggy.hpp lines 390-399) at index i:
   if path.i exists, remove path.(i+1) and rename path.i to path.(i+1). -/
def shiftOne (orc : FsOracle) (p : String) (i : Nat) (fs : FS) : FS :=
  let src := backupName p i
  let dst := backupName p (i + 1)
  if fsExists fs src then fsRename orc src dst (fsRemove orc dst fs) else fs

/- The backup shift loop: indices i, i-1, ..., 1 (called with i = N-1). -/
def shiftBackups (orc : FsOracle) (p : String) : Nat → FS → FS
  | 0, fs => fs
  | Nat.succ i, fs => shiftBackups orc p i (shiftOne orc p (Nat.succ i) fs)

/- rotateIfNeeded, loggy.hpp lines 378-406. -/
def rotateIfNeeded (cfg : CompileCfg) (orc : FsOracle) (st : LoggerState) (fs : FS) :
    LoggerState × FS :=
  if !st.fileOutput then (st, fs)
  else if !(fsExists fs st.logFilePath) then (st, fs)
  else if !orc.sizeOk then (st, fs)
  else if fsSize fs st.logFilePath ≤ cfg.maxLogFileSize then (st, fs)
  else
    let st1 := { st with logFileOpen := false }
    let p := st.logFilePath
    let fs1 :=
      if 0 < cfg.rotateBackups then
        let fsS := shiftBackups orc p (cfg.rotateBackups - 1) fs
        let first := backupName p 1
        fsRename orc p first (fsRemove orc first fsS)
      else fs
    openLogFile true orc.reopenOk st1 fs1

/- The file-sink section of Logger::submit (loggy.hpp lines 249-256), with
   doFile the configuration snapshot taken before the handler ran: re-acquire
   the lock, and if the stream is open bump the line counter, run the periodic
   rotation check and append the line (a write on a closed stream, e.g. after
   a failed reopen inside rotation, is a no-op). -/
def fileStep (cfg : CompileCfg) (orc : FsOracle) (doFile : Bool) (out : String)
    (st : LoggerState) (fs : FS) : LoggerState × FS × List SinkEvent :=
  if doFile then
    if st.logFileOpen then
      let stB := { st with lineCount := st.lineCount + 1 }
      let rcheck :=
        if stB.lineCount % cfg.checkInterval == 0 then rotateIfNeeded cfg orc stB fs
        else (stB, fs)
      if rcheck.1.logFileOpen then
        (rcheck.1, appendToFile rcheck.2 rcheck.1.logFilePath (out ++ "\n"),
          [SinkEvent.fileWrite (out ++ "\n")])
      else (rcheck.1, rcheck.2, [])
    else (st, fs, [])
  else (st, fs, [])

/- Sequential execution of the log calls a handler makes, threading state and
   filesystem and collecting the produced events. -/
def runList (step : LoggerState → FS → NestedCall → LoggerState × FS × List SinkEvent) :
    List NestedCall → LoggerState → FS → LoggerState × FS × List SinkEvent
  | [], st, fs => (st, fs, [])
  | c :: cs, st, fs =>
    let r1 := step st fs c
    let r2 := runList step cs r1.1 r1.2.1
    (r2.1, r2.2.1, r1.2.2 ++ r2.2.2)

/- Logger::submit, loggy.hpp lines 201-257.  Under the lock the line is
   formatted and the configuration snapshot taken; the handler then runs
   outside the lock guarded by the thread-local flag; the console write
   follows; the file write re-acquires the lock, bumps the line counter,
   runs the periodic rotation check and appends (a write on a closed stream,
   e.g. after a failed reopen inside rotation, is a no-op).  hT tells whether
   this handler invocation raises; the exception is caught either way.  The
   fuel bounds the handler-in-handler nesting; it is 1 at every entry point
   and nested calls run with the guard set, so the fuel-0 case of the guard
   is never reached. -/
def submitAux (cfg : CompileCfg) (orc : FsOracle) (fuel : Nat) (st : LoggerState) (fs : FS)
    (level : LogLevel) (func fileArg : Option String) (line : Int)
    (msg ts tid : String) (hT : Bool) : LoggerState × FS × List SinkEvent :=
  let out := formatLine level func fileArg line msg st.includeThreadId ts tid
  let doConsole := st.consoleOutput
  let doFile := st.fileOutput
  let hstep : LoggerState × FS × List SinkEvent :=
    match st.customHandler, st.inHandler with
    | some h, false =>
      match fuel with
      | 0 => (st, fs, [])
      | Nat.succ fuelN =>
        let r := runList
          (fun st1 fs1 c =>
            if !(loggy_enabled cfg c.level) then (st1, fs1, [])
            else if c.level.toNat < st1.runtimeMinLvl.toNat then (st1, fs1, [])
            else submitAux cfg orc fuelN st1 fs1 c.level (some c.origin) none 0 c.msg c.ts c.tid false)
          (h out) { st with inHandler := true } fs
        ({ r.1 with inHandler := false }, r.2.1, [SinkEvent.handlerCall out r.2.2 hT])
    | _, _ => (st, fs, [])
  let cEvts : List SinkEvent :=
    if doConsole then [SinkEvent.consoleWrite (out ++ "\n")] else []
  let fres : LoggerState × FS × List SinkEvent :=
    fileStep cfg orc doFile out hstep.1 hstep.2.1
  (fres.1, fres.2.1, hstep.2.2 ++ cEvts ++ fres.2.2)

/- Logger::log (loggy.hpp lines 134-144 and 162-166): compile-time filter,
   runtime filter, then submit with file = nullptr, line = 0.  The variadic
   arguments are the pre-rendered fragments appended after the message. -/
def log (cfg : CompileCfg) (orc : FsOracle) (st : LoggerState) (fs : FS) (level : LogLevel)
    (functionName : Option String) (msg : String) (args : List String)
    (ts tid : String) (hT : Bool) : LoggerState × FS × List SinkEvent :=
  if !(loggy_enabled cfg level) then (st, fs, [])
  else if level.toNat < st.runtimeMinLvl.toNat then (st, fs, [])
  else submitAux cfg orc 1 st fs level functionName none 0 (msg ++ String.join args) ts tid hT

/- Logger::logEx, loggy.hpp lines 147-159. -/
def logEx (cfg : CompileCfg) (orc : FsOracle) (st : LoggerState) (fs : FS) (level : LogLevel)
    (functionName file : Option String) (line : Int) (msg : String) (args : List String)
    (ts tid : String) (hT : Bool) : LoggerState × FS × List SinkEvent :=
  if !(loggy_enabled cfg level) then (st, fs, [])
  else if level.toNat < st.runtimeMinLvl.toNat then (st, fs, [])
  else submitAux cfg orc 1 st fs level functionName file line (msg ++ String.join args) ts tid hT

/- Logger::shutdown, loggy.hpp lines 99-105: flush and close if open. -/
def shutdown (st : LoggerState) : LoggerState :=
  if st.logFileOpen then { st with logFileOpen := false } else st

/- Logger::setLogPath, loggy.hpp lines 76-81 (ensureDir only creates
   directories, which the filesystem model does not track). -/
def setLogPath (st : LoggerState) (fs : FS) (path : String) (ok : Bool) :
    LoggerState × FS :=
  openLogFile true ok { st with logFilePath := path } fs

def setLogLevel (st : LoggerState) (l : LogLevel) : LoggerState :=
  { st with runtimeMinLvl := l }

def enableConsoleOutput (st : LoggerState) (b : Bool) : LoggerState :=
  { st with consoleOutput := b }

def enableFileOutput (st : LoggerState) (b : Bool) : LoggerState :=
  { st with fileOutput := b }

def enableAutoFlush (st : LoggerState) (b : Bool) : LoggerState :=
  { st with autoFlush := b }

def includeThreadId (st : LoggerState) (b : Bool) : LoggerState :=
  { st with includeThreadId := b }

def setTimestampFormat (st : LoggerState) (f : String) : LoggerState :=
  { st with timeFormat := f }

def setCustomLogHandler (st : LoggerState) (h : Option (String → List NestedCall)) :
    LoggerState :=
  { st with customHandler := h }

/- Plain (error-free) remove, used by the spec-side rotation description. -/
def fsRemoveP (p : String) (fs : FS) : FS := fs.write p none

/- Plain (error-free) rename, used by the spec-side rotation description. -/
def fsRenameP (src dst : String) (fs : FS) : FS :=
  match fs src with
  | some c => (fs.write src none).write dst (some c)
  | none => fs

/- The backup shift as the spec states it, for claim C4: for each backup index
   i from N-1 down to 1 where path.i exists, remove any existing path.(i+1)
   and rename path.i to path.(i+1). -/
def shiftSpec (p : String) : Nat → FS → FS
  | 0, fs => fs
  | Nat.succ i, fs =>
    shiftSpec p i
      (if fsExists fs (backupName p (Nat.succ i)) then
        fsRenameP (backupName p (Nat.succ i)) (backupName p (Nat.succ i + 1))
          (fsRemoveP (backupName p (Nat.succ i + 1)) fs)
      else fs)

/- The rotation check as claim C4 states it: skip if the active file does not
   exist or its size is at or below the budget; otherwise flush and close,
   shift the numbered backups upward, remove any existing path.1, rename the
   just-closed active file to path.1, reopen the active path truncated and
   reset the line counter. -/
def rotateSpec (cfg : CompileCfg) (st : LoggerState) (fs : FS) : LoggerState × FS :=
  if !(fsExists fs st.logFilePath) then (st, fs)
  else if fsSize fs st.logFilePath ≤ cfg.maxLogFileSize then (st, fs)
  else
    let p := st.logFilePath
    let fs1 := shiftSpec p (cfg.rotateBackups - 1) fs
    let fs2 := fsRenameP p (backupName p 1) (fsRemoveP (backupName p 1) fs1)
    ({ st with logFileOpen := true, lineCount := 0 }, fs2.write p (some ""))

/- One external interaction with the logger, for the reachability model of
   claim C5.  Each log call carries its own oracles; setLogPath always uses
   the logger's configured path (the claim concerns one active path). -/
inductive LogOp where
  | doLog (orc : FsOracle) (level : LogLevel) (func : Option String) (msg : String)
      (args : List String) (ts tid : String) (hT : Bool)
  | doLogEx (orc : FsOracle) (level : LogLevel) (func file : Option String) (line : Int)
      (msg : String) (args : List String) (ts tid : String) (hT : Bool)
  | doShutdown
  | doSetPath (ok : Bool)
  | doSetLevel (l : LogLevel)
  | doSetConsole (b : Bool)
  | doSetFile (b : Bool)
  | doSetFlush (b : Bool)
  | doSetTid (b : Bool)
  | doSetFormat (f : String)
  | doSetHandler (h : Option (String → List NestedCall))

def applyOp (cfg : CompileCfg) (p : String) : LogOp → LoggerState × FS → LoggerState × FS
  | LogOp.doLog orc level func msg args ts tid hT, (st, fs) =>
    let r := log cfg orc st fs level func msg args ts tid hT
    (r.1, r.2.1)
  | LogOp.doLogEx orc level func file line msg args ts tid hT, (st, fs) =>
    let r := logEx cfg orc st fs level func file line msg args ts tid hT
    (r.1, r.2.1)
  | LogOp.doShutdown, (st, fs) => (shutdown st, fs)
  | LogOp.doSetPath ok, (st, fs) => setLogPath st fs p ok
  | LogOp.doSetLevel l, (st, fs) => (setLogLevel st l, fs)
  | LogOp.doSetConsole b, (st, fs) => (enableConsoleOutput st b, fs)
  | LogOp.doSetFile b, (st, fs) => (enableFileOutput st b, fs)
  | LogOp.doSetFlush b, (st, fs) => (enableAutoFlush st b, fs)
  | LogOp.doSetTid b, (st, fs) => (includeThreadId st b, fs)
  | LogOp.doSetFormat f, (st, fs) => (setTimestampFormat st f, fs)
  | LogOp.doSetHandler h, (st, fs) => (setCustomLogHandler st h, fs)

/- States reachable from a fresh logger pointed at path p on an empty
   filesystem, under any sequence of logger operations. -/
inductive Reachable (cfg : CompileCfg) (p : String) : LoggerState × FS → Prop where
  | base (ok : Bool) : Reachable cfg p (setLogPath initLogger emptyFS p ok)
  | step (s : LoggerState × FS) (op : LogOp) :
      Reachable cfg p s → Reachable cfg p (applyOp cfg p op s)

/- Every existing file is either the active file at p or one of the numbered
   backups path.1 .. path.n. -/
def goodFS (p : String) (n : Nat) (fs : FS) : Prop :=
  ∀ q, (fs q).isSome = true → q = p ∨ ∃ k, 1 ≤ k ∧ k ≤ n ∧ q = backupName p k

/- The combined state invariant for claim C5. -/
def Inv (p : String) (n : Nat) (st : LoggerState) (fs : FS) : Prop :=
  st.logFilePath = p ∧ goodFS p n fs

end Logger

namespace LoggyH

/- The legacy variant src/Loggy.h.  Its handler has no reentrancy concerns
   (it is invoked under the lock and, per the dispatch structure, replaces
   the built-in sinks), so only its presence is modelled. -/
structure State where
  logFileOpen : Bool
  logFilePath : String
  currentLogLevel : LogLevel
  consoleOutput : Bool
  autoFlush : Bool
  timeFormat : String
  hasCustomHandler : Bool

def MAX_LOG_FILE_SIZE : Nat := 5 * 1024 * 1024

def logLevelToString : LogLevel → String
  | LogLevel.DEBUG => "DEBUG"
  | LogLevel.INFO => "INFO"
  | LogLevel.WARN => "WARN"
  | LogLevel.ERR => "ERROR"
  | LogLevel.FATAL => "FATAL"

/- formatLogMessage, Loggy.h lines 139-154. -/
def formatLogMessage (level : LogLevel) (functionName msg ts tid : String) : String :=
  ts ++ " [Thread: " ++ tid ++ "]" ++ " [" ++ logLevelToString level ++ "] "
    ++ functionName ++ " -> " ++ msg

/- openLogFile, Loggy.h lines 122-126 (opening an already-open stream fails;
   a successful open truncates). -/
def openLogFile (st : State) (fs : FS) : State × FS :=
  if st.logFileOpen then (st, fs)
  else ({ st with logFileOpen := true }, fs.write st.logFilePath (some ""))

/- rotateLogIfNeeded, Loggy.h lines 128-137: over the budget the active file
   is closed, removed and reopened; no backups are kept. -/
def rotateLogIfNeeded (st : State) (fs : FS) : State × FS :=
  if fsExists fs st.logFilePath then
    if MAX_LOG_FILE_SIZE < fsSize fs st.logFilePath then
      openLogFile { st with logFileOpen := false } (fs.write st.logFilePath none)
    else (st, fs)
  else (st, fs)

/- Logger::log, Loggy.h lines 74-97: when a custom handler is set it receives
   the line and the console/file branch is not taken at all. -/
def log (st : State) (fs : FS) (level : LogLevel) (functionName msg ts tid : String) :
    State × FS × List SinkEvent :=
  if level.toNat < st.currentLogLevel.toNat then (st, fs, [])
  else
    let output := formatLogMessage level functionName msg ts tid
    if st.hasCustomHandler then (st, fs, [SinkEvent.handlerCall output [] false])
    else
      let cEvts : List SinkEvent :=
        if st.consoleOutput then [SinkEvent.consoleWrite (output ++ "\n")] else []
      let fres : State × FS × List SinkEvent :=
        if st.logFileOpen then
          let r := rotateLogIfNeeded st fs
          (r.1, appendToFile r.2 r.1.logFilePath (output ++ "\n"),
            [SinkEvent.fileWrite (output ++ "\n")])
        else (st, fs, [])
      (fres.1, fres.2.1, cEvts ++ fres.2.2)

end LoggyH

/- Concrete fixtures for witnesses and counterexamples. -/

def handlerW : String → List Logger.NestedCall :=
  fun _ => [⟨LogLevel.INFO, "g", "x", "T2", "7"⟩]

def stW : Logger.LoggerState :=
  { Logger.initLogger with
      logFileOpen := true, logFilePath := "app.log", customHandler := some handlerW }

def fsW : FS := emptyFS.write "app.log" (some "")

def cfgW : CompileCfg := ⟨3, 2, 1, 0⟩

def stR : Logger.LoggerState :=
  { Logger.initLogger with logFileOpen := true, logFilePath := "app.log" }

def fsR : FS :=
  (emptyFS.write "app.log" (some "abcdef")).write "app.log.1" (some "old1")

def stH : LoggyH.State :=
  { logFileOpen := false
    logFilePath := ""
    currentLogLevel := LogLevel.DEBUG
    consoleOutput := true
    autoFlush := false
    timeFormat := "%Y-%m-%d %H:%M:%S"
    hasCustomHandler := true }

def cfg9 : CompileCfg := ⟨5 * 1024 * 1024, 3, 200, 2⟩

def stWmin : Logger.LoggerState := { stW with runtimeMinLvl := LogLevel.WARN }

def stWin : Logger.LoggerState := { stW with inHandler := true }

def outW1 : String := Logger.formatLine LogLevel.INFO (some "f") none 0 "m" true "TS" "7"

def outW2 : String := Logger.formatLine LogLevel.INFO (some "g") none 0 "x" true "T2" "7"

def orcBad : Logger.FsOracle := ⟨false, fun _ => true, fun _ => true, true⟩

/- Helper lemmas. -/

@[simp]
theorem FS.write_apply (fs : FS) (p : String) (c : Option String) (q : String) :
    FS.write fs p c q = if q = p then c else fs q := rfl

@[simp]
theorem consoleLines_nil : consoleLines [] = [] := rfl

@[simp]
theorem consoleLines_cons_handler (s : String) (ne : List SinkEvent) (r : Bool)
    (l : List SinkEvent) :
    consoleLines (SinkEvent.handlerCall s ne r :: l) = consoleLines l := rfl

@[simp]
theorem consoleLines_cons_console (s : String) (l : List SinkEvent) :
    consoleLines (SinkEvent.consoleWrite s :: l) = s :: consoleLines l := rfl

@[simp]
theorem consoleLines_cons_file (s : String) (l : List SinkEvent) :
    consoleLines (SinkEvent.fileWrite s :: l) = consoleLines l := rfl

@[simp]
theorem consoleLines_append (l1 l2 : List SinkEvent) :
    consoleLines (l1 ++ l2) = consoleLines l1 ++ consoleLines l2 :=
  List.filterMap_append l1 l2 _

@[simp]
theorem fileLines_nil : fileLines [] = [] := rfl

@[simp]
theorem fileLines_cons_handler (s : String) (ne : List SinkEvent) (r : Bool)
    (l : List SinkEvent) :
    fileLines (SinkEvent.handlerCall s ne r :: l) = fileLines l := rfl

@[simp]
theorem fileLines_cons_console (s : String) (l : List SinkEvent) :
    fileLines (SinkEvent.consoleWrite s :: l) = fileLines l := rfl

@[simp]
theorem fileLines_cons_file (s : String) (l : List SinkEvent) :
    fileLines (SinkEvent.fileWrite s :: l) = s :: fileLines l := rfl

@[simp]
theorem fileLines_append (l1 l2 : List SinkEvent) :
    fileLines (l1 ++ l2) = fileLines l1 ++ fileLines l2 :=
  List.filterMap_append l1 l2 _

@[simp]
theorem handlerLines_nil : handlerLines [] = [] := rfl

@[simp]
theorem handlerLines_cons_handler (s : String) (ne : List SinkEvent) (r : Bool)
    (l : List SinkEvent) :
    handlerLines (SinkEvent.handlerCall s ne r :: l) = s :: handlerLines l := rfl

@[simp]
theorem handlerLines_cons_console (s : String) (l : List SinkEvent) :
    handlerLines (SinkEvent.consoleWrite s :: l) = handlerLines l := rfl

@[simp]
theorem handlerLines_cons_file (s : String) (l : List SinkEvent) :
    handlerLines (SinkEvent.fileWrite s :: l) = handlerLines l := rfl

@[simp]
theorem handlerLines_append (l1 l2 : List SinkEvent) :
    handlerLines (l1 ++ l2) = handlerLines l1 ++ handlerLines l2 :=
  List.filterMap_append l1 l2 _

@[simp]
theorem consoleLines_ite (c : Prop) [Decidable c] (l1 l2 : List SinkEvent) :
    consoleLines (if c then l1 else l2)
      = if c then consoleLines l1 else consoleLines l2 :=
  apply_ite consoleLines c l1 l2

@[simp]
theorem fileLines_ite (c : Prop) [Decidable c] (l1 l2 : List SinkEvent) :
    fileLines (if c then l1 else l2)
      = if c then fileLines l1 else fileLines l2 :=
  apply_ite fileLines c l1 l2

@[simp]
theorem handlerLines_ite (c : Prop) [Decidable c] (l1 l2 : List SinkEvent) :
    handlerLines (if c then l1 else l2)
      = if c then handlerLines l1 else handlerLines l2 :=
  apply_ite handlerLines c l1 l2

namespace Logger

theorem runList_proj {α : Type} (f : LoggerState → α)
    (step : LoggerState → FS → NestedCall → LoggerState × FS × List SinkEvent)
    (hstep : ∀ st fs c, f (step st fs c).1 = f st) :
    ∀ cs st fs, f (runList step cs st fs).1 = f st := by
  intro cs
  induction cs with
  | nil => intro st fs; rfl
  | cons c cs ih =>
    intro st fs
    simp only [runList]
    rw [ih, hstep]

theorem runList_inv (P : LoggerState → FS → Prop)
    (step : LoggerState → FS → NestedCall → LoggerState × FS × List SinkEvent)
    (hstep : ∀ st fs c, P st fs → P (step st fs c).1 (step st fs c).2.1) :
    ∀ cs st fs, P st fs → P (runList step cs st fs).1 (runList step cs st fs).2.1 := by
  intro cs
  induction cs with
  | nil => intro st fs h; exact h
  | cons c cs ih =>
    intro st fs h
    simp only [runList]
    exact ih _ _ (hstep _ _ _ h)

theorem rotate_shape (cfg : CompileCfg) (orc : FsOracle) (st : LoggerState) (fs : FS) :
    ∃ b n, (rotateIfNeeded cfg orc st fs).1 = { st with logFileOpen := b, lineCount := n } := by
  unfold rotateIfNeeded openLogFile
  split
  · exact ⟨st.logFileOpen, st.lineCount, rfl⟩
  split
  · exact ⟨st.logFileOpen, st.lineCount, rfl⟩
  split
  · exact ⟨st.logFileOpen, st.lineCount, rfl⟩
  split
  · exact ⟨st.logFileOpen, st.lineCount, rfl⟩
  simp only
  split
  · exact ⟨false, 0, rfl⟩
  split
  · exact ⟨true, 0, rfl⟩
  · exact ⟨false, 0, rfl⟩

@[simp]
theorem rotate_proj_inHandler (cfg : CompileCfg) (orc : FsOracle) (st : LoggerState) (fs : FS) :
    (rotateIfNeeded cfg orc st fs).1.inHandler = st.inHandler := by
  obtain ⟨b, n, h⟩ := rotate_shape cfg orc st fs
  rw [h]

@[simp]
theorem rotate_proj_path (cfg : CompileCfg) (orc : FsOracle) (st : LoggerState) (fs : FS) :
    (rotateIfNeeded cfg orc st fs).1.logFilePath = st.logFilePath := by
  obtain ⟨b, n, h⟩ := rotate_shape cfg orc st fs
  rw [h]

@[simp]
theorem rotate_proj_customHandler (cfg : CompileCfg) (orc : FsOracle)
    (st : LoggerState) (fs : FS) :
    (rotateIfNeeded cfg orc st fs).1.customHandler = st.customHandler := by
  obtain ⟨b, n, h⟩ := rotate_shape cfg orc st fs
  rw [h]

theorem rotate_open (cfg : CompileCfg) (orc : FsOracle) (st : LoggerState) (fs : FS)
    (hok : orc.reopenOk = true) (hopen : st.logFileOpen = true) :
    (rotateIfNeeded cfg orc st fs).1.logFileOpen = true := by
  unfold rotateIfNeeded openLogFile
  split
  · exact hopen
  split
  · exact hopen
  split
  · exact hopen
  split
  · exact hopen
  simp [hok]

theorem fileStep_shape (cfg : CompileCfg) (orc : FsOracle) (doFile : Bool) (out : String)
    (st : LoggerState) (fs : FS) :
    ∃ b n, (fileStep cfg orc doFile out st fs).1 = { st with logFileOpen := b, lineCount := n } := by
  unfold fileStep
  split
  · split
    · dsimp only
      by_cases hmod : ((st.lineCount + 1) % cfg.checkInterval == 0) = true
      · rw [if_pos hmod]
        split
        · obtain ⟨b, n, h⟩ := rotate_shape cfg orc ({ st with lineCount := st.lineCount + 1 }) fs
          exact ⟨b, n, by rw [h]⟩
        · obtain ⟨b, n, h⟩ := rotate_shape cfg orc ({ st with lineCount := st.lineCount + 1 }) fs
          exact ⟨b, n, by rw [h]⟩
      · rw [if_neg hmod]
        split
        · exact ⟨st.logFileOpen, st.lineCount + 1, rfl⟩
        · exact ⟨st.logFileOpen, st.lineCount + 1, rfl⟩
    · exact ⟨st.logFileOpen, st.lineCount, rfl⟩
  · exact ⟨st.logFileOpen, st.lineCount, rfl⟩

@[simp]
theorem fileStep_inHandler (cfg : CompileCfg) (orc : FsOracle) (doFile : Bool) (out : String)
    (st : LoggerState) (fs : FS) :
    (fileStep cfg orc doFile out st fs).1.inHandler = st.inHandler := by
  obtain ⟨b, n, h⟩ := fileStep_shape cfg orc doFile out st fs
  rw [h]

@[simp]
theorem fileStep_path (cfg : CompileCfg) (orc : FsOracle) (doFile : Bool) (out : String)
    (st : LoggerState) (fs : FS) :
    (fileStep cfg orc doFile out st fs).1.logFilePath = st.logFilePath := by
  obtain ⟨b, n, h⟩ := fileStep_shape cfg orc doFile out st fs
  rw [h]

@[simp]
theorem fileStep_customHandler (cfg : CompileCfg) (orc : FsOracle) (doFile : Bool)
    (out : String) (st : LoggerState) (fs : FS) :
    (fileStep cfg orc doFile out st fs).1.customHandler = st.customHandler := by
  obtain ⟨b, n, h⟩ := fileStep_shape cfg orc doFile out st fs
  rw [h]

@[simp]
theorem fileStep_consoleOutput (cfg : CompileCfg) (orc : FsOracle) (doFile : Bool)
    (out : String) (st : LoggerState) (fs : FS) :
    (fileStep cfg orc doFile out st fs).1.consoleOutput = st.consoleOutput := by
  obtain ⟨b, n, h⟩ := fileStep_shape cfg orc doFile out st fs
  rw [h]

@[simp]
theorem fileStep_runtimeMinLvl (cfg : CompileCfg) (orc : FsOracle) (doFile : Bool)
    (out : String) (st : LoggerState) (fs : FS) :
    (fileStep cfg orc doFile out st fs).1.runtimeMinLvl = st.runtimeMinLvl := by
  obtain ⟨b, n, h⟩ := fileStep_shape cfg orc doFile out st fs
  rw [h]

theorem fileStep_open (cfg : CompileCfg) (orc : FsOracle) (doFile : Bool) (out : String)
    (st : LoggerState) (fs : FS) (hok : orc.reopenOk = true) :
    (fileStep cfg orc doFile out st fs).1.logFileOpen = st.logFileOpen := by
  unfold fileStep
  split
  · split
    · next hopen =>
      dsimp only
      by_cases hmod : ((st.lineCount + 1) % cfg.checkInterval == 0) = true
      · rw [if_pos hmod]
        have hro := rotate_open cfg orc { st with lineCount := st.lineCount + 1 } fs hok
          (by simpa using hopen)
        split
        · rw [hro, hopen]
        · rw [hro, hopen]
      · rw [if_neg hmod]
        split
        · rfl
        · rfl
    · rfl
  · rfl

theorem fileStep_closed (cfg : CompileCfg) (orc : FsOracle) (doFile : Bool) (out : String)
    (st : LoggerState) (fs : FS) (hcl : st.logFileOpen = false) :
    fileStep cfg orc doFile out st fs = (st, fs, []) := by
  unfold fileStep
  split
  · split
    · next h => rw [hcl] at h; simp at h
    · rfl
  · rfl

@[simp]
theorem fileStep_consoleLines (cfg : CompileCfg) (orc : FsOracle) (doFile : Bool)
    (out : String) (st : LoggerState) (fs : FS) :
    consoleLines (fileStep cfg orc doFile out st fs).2.2 = [] := by
  unfold fileStep
  split
  · split
    · dsimp only
      by_cases hmod : ((st.lineCount + 1) % cfg.checkInterval == 0) = true
      · rw [if_pos hmod]
        split <;> simp
      · rw [if_neg hmod]
        split <;> simp
    · simp
  · simp

@[simp]
theorem fileStep_handlerLines (cfg : CompileCfg) (orc : FsOracle) (doFile : Bool)
    (out : String) (st : LoggerState) (fs : FS) :
    handlerLines (fileStep cfg orc doFile out st fs).2.2 = [] := by
  unfold fileStep
  split
  · split
    · dsimp only
      by_cases hmod : ((st.lineCount + 1) % cfg.checkInterval == 0) = true
      · rw [if_pos hmod]
        split <;> simp
      · rw [if_neg hmod]
        split <;> simp
    · simp
  · simp

theorem fileStep_noHC (cfg : CompileCfg) (orc : FsOracle) (doFile : Bool)
    (out : String) (st : LoggerState) (fs : FS) :
    ∀ e ∈ (fileStep cfg orc doFile out st fs).2.2, e.isHandlerCall = false := by
  unfold fileStep
  split
  · split
    · dsimp only
      by_cases hmod : ((st.lineCount + 1) % cfg.checkInterval == 0) = true
      · rw [if_pos hmod]
        split <;> simp [SinkEvent.isHandlerCall]
      · rw [if_neg hmod]
        split <;> simp [SinkEvent.isHandlerCall]
    · simp
  · simp

theorem fileStep_fileLines (cfg : CompileCfg) (orc : FsOracle) (doFile : Bool) (out : String)
    (st : LoggerState) (fs : FS) (hok : orc.reopenOk = true) :
    fileLines (fileStep cfg orc doFile out st fs).2.2
      = if doFile && st.logFileOpen then [out ++ "
"] else [] := by
  unfold fileStep
  split
  · next hdo =>
    split
    · next hopen =>
      dsimp only
      by_cases hmod : ((st.lineCount + 1) % cfg.checkInterval == 0) = true
      · rw [if_pos hmod]
        have hro := rotate_open cfg orc { st with lineCount := st.lineCount + 1 } fs hok
          (by simpa using hopen)
        split
        · simp [hdo, hopen]
        · next h2 => exact absurd hro h2
      · rw [if_neg hmod]
        split
        · simp [hdo, hopen]
        · next h2 => simp [hopen] at h2
    · next hopen =>
      simp only [Bool.not_eq_true] at hopen
      simp [hopen]
  · next hdo =>
    simp only [Bool.not_eq_true] at hdo
    simp [hdo]

theorem submit_inHandler (cfg : CompileCfg) (orc : FsOracle) (fuel : Nat) (st : LoggerState)
    (fs : FS) (level : LogLevel) (func fileArg : Option String) (line : Int)
    (msg ts tid : String) (hT : Bool) :
    (submitAux cfg orc fuel st fs level func fileArg line msg ts tid hT).1.inHandler
      = st.inHandler := by
  unfold submitAux
  rcases hch : st.customHandler with _ | h
  · simp [hch]
  · cases hin : st.inHandler
    · cases fuel with
      | zero => simp [hch, hin]
      | succ n => simp [hch, hin]
    · simp [hch, hin]

theorem submit_open (cfg : CompileCfg) (orc : FsOracle) (hok : orc.reopenOk = true) :
    ∀ (fuel : Nat) (st : LoggerState) (fs : FS) (level : LogLevel)
      (func fileArg : Option String) (line : Int) (msg ts tid : String) (hT : Bool),
    (submitAux cfg orc fuel st fs level func fileArg line msg ts tid hT).1.logFileOpen
      = st.logFileOpen := by
  intro fuel
  induction fuel with
  | zero =>
    intro st fs level func fileArg line msg ts tid hT
    unfold submitAux
    rcases hch : st.customHandler with _ | h
    · simp [hch, fileStep_open, hok]
    · cases hin : st.inHandler
      · simp [hch, hin, fileStep_open, hok]
      · simp [hch, hin, fileStep_open, hok]
  | succ n ih =>
    intro st fs level func fileArg line msg ts tid hT
    unfold submitAux
    rcases hch : st.customHandler with _ | h
    · simp [hch, fileStep_open, hok]
    · cases hin : st.inHandler
      · have hrl : ∀ cs st0 fs0,
            (runList (fun st1 fs1 c =>
              if loggy_enabled cfg c.level = false then (st1, fs1, [])
              else if c.level.toNat < st1.runtimeMinLvl.toNat then (st1, fs1, [])
              else submitAux cfg orc n st1 fs1 c.level (some c.origin) none 0 c.msg c.ts c.tid false)
              cs st0 fs0).1.logFileOpen = st0.logFileOpen := by
          intro cs st0 fs0
          refine runList_proj (fun s => s.logFileOpen) _ ?_ cs st0 fs0
          intro st1 fs1 c
          split
          · rfl
          split
          · rfl
          · exact ih st1 fs1 c.level (some c.origin) none 0 c.msg c.ts c.tid false
        simp [hch, hin, fileStep_open, hok, hrl]
      · simp [hch, hin, fileStep_open, hok]

theorem submit_closed (cfg : CompileCfg) (orc : FsOracle) :
    ∀ (fuel : Nat) (st : LoggerState) (fs : FS) (level : LogLevel)
      (func fileArg : Option String) (line : Int) (msg ts tid : String) (hT : Bool),
    st.logFileOpen = false →
    (submitAux cfg orc fuel st fs level func fileArg line msg ts tid hT).1.logFileOpen = false
    ∧ (submitAux cfg orc fuel st fs level func fileArg line msg ts tid hT).2.1 = fs
    ∧ fileLines (submitAux cfg orc fuel st fs level func fileArg line msg ts tid hT).2.2 = [] := by
  intro fuel
  induction fuel with
  | zero =>
    intro st fs level func fileArg line msg ts tid hT hcl
    unfold submitAux
    rcases hch : st.customHandler with _ | h
    · simp [hch, fileStep_closed, hcl]
    · cases hin : st.inHandler
      · simp [hch, hin, fileStep_closed, hcl]
      · simp [hch, hin, fileStep_closed, hcl]
  | succ n ih =>
    intro st fs level func fileArg line msg ts tid hT hcl
    unfold submitAux
    rcases hch : st.customHandler with _ | h
    · simp [hch, fileStep_closed, hcl]
    · cases hin : st.inHandler
      · have hrl : ∀ cs (st0 : LoggerState) (fs0 : FS),
            st0.logFileOpen = false →
            (runList (fun st1 fs1 c =>
              if loggy_enabled cfg c.level = false then (st1, fs1, [])
              else if c.level.toNat < st1.runtimeMinLvl.toNat then (st1, fs1, [])
              else submitAux cfg orc n st1 fs1 c.level (some c.origin) none 0 c.msg c.ts c.tid false)
              cs st0 fs0).1.logFileOpen = false
            ∧ (runList (fun st1 fs1 c =>
              if loggy_enabled cfg c.level = false then (st1, fs1, [])
              else if c.level.toNat < st1.runtimeMinLvl.toNat then (st1, fs1, [])
              else submitAux cfg orc n st1 fs1 c.level (some c.origin) none 0 c.msg c.ts c.tid false)
              cs st0 fs0).2.1 = fs0 := by
          intro cs st0 fs0 h0
          refine runList_inv (fun s f => s.logFileOpen = false ∧ f = fs0)
            (fun st1 fs1 c =>
              if loggy_enabled cfg c.level = false then (st1, fs1, [])
              else if c.level.toNat < st1.runtimeMinLvl.toNat then (st1, fs1, [])
              else submitAux cfg orc n st1 fs1 c.level (some c.origin) none 0 c.msg c.ts c.tid false)
            ?_ cs st0 fs0 ⟨h0, rfl⟩
          intro st1 fs1 c hP
          dsimp only
          split
          · exact hP
          split
          · exact hP
          · obtain ⟨h1, h2, h3⟩ := ih st1 fs1 c.level (some c.origin) none 0 c.msg c.ts c.tid false hP.1
            exact ⟨h1, h2.trans hP.2⟩
        have hr := hrl (h (formatLine level func fileArg line msg st.includeThreadId ts tid))
          { st with inHandler := true } fs (by simp [hcl])
        simp [hch, hin, hcl] at hr ⊢
        rw [fileStep_closed _ _ _ _ _ _ (by simp [hr.1])]
        simp [hr.2, hr.1]
      · simp [hch, hin, fileStep_closed, hcl]

theorem submit_consoleLines (cfg : CompileCfg) (orc : FsOracle) (fuel : Nat)
    (st : LoggerState) (fs : FS) (level : LogLevel) (func fileArg : Option String)
    (line : Int) (msg ts tid : String) (hT : Bool) :
    consoleLines (submitAux cfg orc fuel st fs level func fileArg line msg ts tid hT).2.2
      = if st.consoleOutput then
          [formatLine level func fileArg line msg st.includeThreadId ts tid ++ "\n"]
        else [] := by
  unfold submitAux
  rcases hch : st.customHandler with _ | h
  · by_cases hc : st.consoleOutput = true <;> simp [hch, hc]
  · cases hin : st.inHandler
    · cases fuel with
      | zero => by_cases hc : st.consoleOutput = true <;> simp [hch, hin, hc]
      | succ n => by_cases hc : st.consoleOutput = true <;> simp [hch, hin, hc]
    · by_cases hc : st.consoleOutput = true <;> simp [hch, hin, hc]

theorem submit_handlerLines (cfg : CompileCfg) (orc : FsOracle) (n : Nat)
    (st : LoggerState) (fs : FS) (level : LogLevel) (func fileArg : Option String)
    (line : Int) (msg ts tid : String) (hT : Bool) (hin : st.inHandler = false) :
    handlerLines (submitAux cfg orc (Nat.succ n) st fs level func fileArg line msg ts tid hT).2.2
      = if st.customHandler.isSome then
          [formatLine level func fileArg line msg st.includeThreadId ts tid]
        else [] := by
  unfold submitAux
  rcases hch : st.customHandler with _ | h
  · simp [hch, hin]
  · simp [hch, hin]

theorem submit_fileLines (cfg : CompileCfg) (orc : FsOracle) (hok : orc.reopenOk = true)
    (fuel : Nat) (st : LoggerState) (fs : FS) (level : LogLevel)
    (func fileArg : Option String) (line : Int) (msg ts tid : String) (hT : Bool) :
    fileLines (submitAux cfg orc fuel st fs level func fileArg line msg ts tid hT).2.2
      = if st.fileOutput && st.logFileOpen then
          [formatLine level func fileArg line msg st.includeThreadId ts tid ++ "\n"]
        else [] := by
  unfold submitAux
  rcases hch : st.customHandler with _ | h
  · simp [hch, fileStep_fileLines, hok]
  · cases hin : st.inHandler
    · cases fuel with
      | zero => simp [hch, hin, fileStep_fileLines, hok]
      | succ n =>
        have hrl : ∀ cs st0 fs0,
            (runList (fun st1 fs1 c =>
              if loggy_enabled cfg c.level = false then (st1, fs1, [])
              else if c.level.toNat < st1.runtimeMinLvl.toNat then (st1, fs1, [])
              else submitAux cfg orc n st1 fs1 c.level (some c.origin) none 0 c.msg c.ts c.tid false)
              cs st0 fs0).1.logFileOpen = st0.logFileOpen := by
          intro cs st0 fs0
          refine runList_proj (fun s => s.logFileOpen) _ ?_ cs st0 fs0
          intro st1 fs1 c
          dsimp only
          split
          · rfl
          split
          · rfl
          · exact submit_open cfg orc hok n st1 fs1 c.level (some c.origin) none 0 c.msg c.ts c.tid false
        simp [hch, hin, fileStep_fileLines, hok, hrl]
    · simp [hch, hin, fileStep_fileLines, hok]

theorem submit_noHC (cfg : CompileCfg) (orc : FsOracle) (fuel : Nat)
    (st : LoggerState) (fs : FS) (level : LogLevel) (func fileArg : Option String)
    (line : Int) (msg ts tid : String) (hT : Bool) (hin : st.inHandler = true) :
    ∀ e ∈ (submitAux cfg orc fuel st fs level func fileArg line msg ts tid hT).2.2,
      e.isHandlerCall = false := by
  unfold submitAux
  rcases hch : st.customHandler with _ | h
  all_goals (
    simp only [hch, hin, List.forall_mem_append]
    refine ⟨⟨?_, ?_⟩, ?_⟩
    · intro e he; simp at he
    · intro e he
      split at he
      · simp at he; rw [he]; rfl
      · simp at he
    · exact fileStep_noHC cfg orc st.fileOutput _ st fs)

theorem runList_noHC
    (step : LoggerState → FS → NestedCall → LoggerState × FS × List SinkEvent)
    (hpres : ∀ st fs c, (step st fs c).1.inHandler = st.inHandler)
    (hnone : ∀ st fs c, st.inHandler = true →
      ∀ e ∈ (step st fs c).2.2, e.isHandlerCall = false) :
    ∀ cs st fs, st.inHandler = true →
      ∀ e ∈ (runList step cs st fs).2.2, e.isHandlerCall = false := by
  intro cs
  induction cs with
  | nil => intro st fs hh e he; simp [runList] at he
  | cons c cs ih =>
    intro st fs hh e he
    simp only [runList, List.mem_append] at he
    rcases he with he | he
    · exact hnone st fs c hh e he
    · exact ih _ _ (by rw [hpres]; exact hh) e he

theorem submit_nested_noHC (cfg : CompileCfg) (orc : FsOracle) (fuel : Nat)
    (st : LoggerState) (fs : FS) (level : LogLevel) (func fileArg : Option String)
    (line : Int) (msg ts tid : String) (hT : Bool) :
    ∀ l ne r, SinkEvent.handlerCall l ne r ∈
        (submitAux cfg orc fuel st fs level func fileArg line msg ts tid hT).2.2 →
      ∀ e ∈ ne, e.isHandlerCall = false := by
  intro l ne r hmem e he
  revert hmem
  unfold submitAux
  rcases hch : st.customHandler with _ | h
  · simp only [hch, List.mem_append]
    rintro ((hm | hm) | hm)
    · simp at hm
    · split at hm
      · simp at hm
      · simp at hm
    · have := fileStep_noHC cfg orc st.fileOutput _ st fs _ hm
      simp [SinkEvent.isHandlerCall] at this
  · cases hin : st.inHandler
    · cases fuel with
      | zero =>
        simp only [hch, hin, List.mem_append]
        rintro ((hm | hm) | hm)
        · simp at hm
        · split at hm
          · simp at hm
          · simp at hm
        · have := fileStep_noHC cfg orc st.fileOutput _ st fs _ hm
          simp [SinkEvent.isHandlerCall] at this
      | succ n =>
        simp only [hch, hin, List.mem_append]
        rintro ((hm | hm) | hm)
        · simp at hm
          rw [hm.2.1] at he
          refine runList_noHC _ ?_ ?_ _ _ _ rfl e he
          · intro st1 fs1 c
            dsimp only
            split
            · rfl
            split
            · rfl
            · exact submit_inHandler cfg orc n st1 fs1 c.level (some c.origin) none 0 c.msg c.ts c.tid false
          · intro st1 fs1 c hh1
            dsimp only
            split
            · intro e1 he1; simp at he1
            split
            · intro e1 he1; simp at he1
            · exact submit_noHC cfg orc n st1 fs1 c.level (some c.origin) none 0 c.msg c.ts c.tid false hh1
        · split at hm
          · simp at hm
          · simp at hm
        · have := fileStep_noHC cfg orc st.fileOutput _ _ _ _ hm
          simp [SinkEvent.isHandlerCall] at this
    · simp only [hch, hin, List.mem_append]
      rintro ((hm | hm) | hm)
      · simp at hm
      · split at hm
        · simp at hm
        · simp at hm
      · have := fileStep_noHC cfg orc st.fileOutput _ st fs _ hm
        simp [SinkEvent.isHandlerCall] at this

theorem fsRemove_allOk (p : String) (fs : FS) : fsRemove allOk p fs = fsRemoveP p fs := by
  simp [fsRemove, fsRemoveP, allOk]

theorem fsRename_allOk (src dst : String) (fs : FS) :
    fsRename allOk src dst fs = fsRenameP src dst fs := by
  unfold fsRename fsRenameP
  cases fs src <;> simp [allOk]

theorem shift_allOk (p : String) :
    ∀ (i : Nat) (fs : FS), shiftBackups allOk p i fs = shiftSpec p i fs := by
  intro i
  induction i with
  | zero => intro fs; rfl
  | succ i ih =>
    intro fs
    unfold shiftBackups shiftSpec shiftOne
    rw [ih]
    congr 1

theorem allOk_sizeOk : allOk.sizeOk = true := rfl

theorem allOk_reopenOk : allOk.reopenOk = true := rfl

theorem rotate_allOk_eq (cfg : CompileCfg) (st : LoggerState) (fs : FS)
    (hfo : st.fileOutput = true) (hN : 0 < cfg.rotateBackups) :
    rotateIfNeeded cfg allOk st fs = rotateSpec cfg st fs := by
  unfold rotateIfNeeded rotateSpec
  rw [hfo]
  rw [if_neg (show ¬((!(true : Bool)) = true) by simp)]
  rw [if_neg (show ¬((!allOk.sizeOk) = true) by simp [allOk_sizeOk])]
  dsimp only
  rw [if_pos hN]
  rw [shift_allOk, fsRename_allOk, fsRemove_allOk]
  split
  · rfl
  split
  · rfl
  unfold openLogFile
  simp [allOk_reopenOk]

theorem getLast_str_append (s t : String) (h : t ≠ "") :
    (s ++ t).data.getLast? = t.data.getLast? := by
  have ht : t.data ≠ [] := by
    intro hx
    apply h
    cases t
    simp at hx
    simp [hx]
  rw [String.data_append]
  exact List.getLast?_append_of_ne_nil s.data ht

theorem backupName_ne (p : String) (k : Nat) : backupName p k ≠ p := by
  intro h
  have hlen := congrArg String.length h
  rw [backupName] at hlen
  rw [String.length_append, String.length_append] at hlen
  have hdot : (".").length = 1 := rfl
  omega

theorem write_apply_ne (fs : FS) (q : String) (c : Option String) (p : String)
    (h : p ≠ q) : FS.write fs q c p = fs p := by
  simp [FS.write_apply, h]

theorem goodFS_write (p : String) (n : Nat) (fs : FS) (q : String) (c : Option String)
    (h : goodFS p n fs)
    (hq : c = none ∨ q = p ∨ ∃ k, 1 ≤ k ∧ k ≤ n ∧ q = backupName p k) :
    goodFS p n (fs.write q c) := by
  intro q' hq'
  rw [FS.write_apply] at hq'
  by_cases he : q' = q
  · rw [if_pos he] at hq'
    rcases hq with hc | hrest
    · rw [hc] at hq'; simp at hq'
    · rw [he]; exact hrest
  · rw [if_neg he] at hq'
    exact h q' hq'

theorem goodFS_fsRemove (orc : FsOracle) (p : String) (n : Nat) (q : String) (fs : FS)
    (h : goodFS p n fs) : goodFS p n (fsRemove orc q fs) := by
  unfold fsRemove
  split
  · exact goodFS_write p n fs q none h (Or.inl rfl)
  · exact h

theorem goodFS_fsRename (orc : FsOracle) (p : String) (n : Nat) (src dst : String) (fs : FS)
    (h : goodFS p n fs)
    (hdst : dst = p ∨ ∃ k, 1 ≤ k ∧ k ≤ n ∧ dst = backupName p k) :
    goodFS p n (fsRename orc src dst fs) := by
  unfold fsRename
  split
  · split
    · apply goodFS_write p n _ dst _
        (goodFS_write p n fs src none h (Or.inl rfl)) (Or.inr hdst)
    · exact h
  · exact h

theorem goodFS_shiftOne (orc : FsOracle) (p : String) (n : Nat) (i : Nat) (fs : FS)
    (hi : i + 1 ≤ n) (h : goodFS p n fs) : goodFS p n (shiftOne orc p i fs) := by
  unfold shiftOne
  dsimp only
  split
  · exact goodFS_fsRename orc p n _ _ _ (goodFS_fsRemove orc p n _ fs h)
      (Or.inr ⟨i + 1, by omega, hi, rfl⟩)
  · exact h

theorem goodFS_shift (orc : FsOracle) (p : String) (n : Nat) :
    ∀ i, i < n → ∀ fs, goodFS p n fs → goodFS p n (shiftBackups orc p i fs) := by
  intro i
  induction i with
  | zero => intro _ fs h; exact h
  | succ i ih =>
    intro hi fs h
    unfold shiftBackups
    exact ih (by omega) _ (goodFS_shiftOne orc p n (i + 1) fs (by omega) h)

theorem openLogFile_path (truncate ok : Bool) (st : LoggerState) (fs : FS) :
    (openLogFile truncate ok st fs).1.logFilePath = st.logFilePath := by
  unfold openLogFile
  split
  · rfl
  split
  · rfl
  · rfl

theorem goodFS_openLogFile (truncate ok : Bool) (st : LoggerState) (fs : FS) (p : String)
    (n : Nat) (hpath : st.logFilePath = p) (h : goodFS p n fs) :
    goodFS p n (openLogFile truncate ok st fs).2 := by
  unfold openLogFile
  split
  · exact h
  split
  · exact goodFS_write p n fs st.logFilePath _ h (Or.inr (Or.inl hpath))
  · exact h

theorem goodFS_rotate (cfg : CompileCfg) (orc : FsOracle) (st : LoggerState) (fs : FS)
    (p : String) (hpath : st.logFilePath = p) (h : goodFS p cfg.rotateBackups fs) :
    goodFS p cfg.rotateBackups (rotateIfNeeded cfg orc st fs).2 := by
  subst hpath
  unfold rotateIfNeeded
  split
  · exact h
  split
  · exact h
  split
  · exact h
  split
  · exact h
  dsimp only
  refine goodFS_openLogFile true orc.reopenOk _ _ st.logFilePath cfg.rotateBackups rfl ?_
  split
  · next hN =>
    exact goodFS_fsRename orc st.logFilePath _ _ _ _
      (goodFS_fsRemove orc st.logFilePath _ _ _
        (goodFS_shift orc st.logFilePath _ (cfg.rotateBackups - 1) (by omega) fs h))
      (Or.inr ⟨1, le_refl 1, hN, rfl⟩)
  · exact h

theorem goodFS_append (p : String) (n : Nat) (fs : FS) (q s : String)
    (hq : q = p) (h : goodFS p n fs) : goodFS p n (appendToFile fs q s) :=
  goodFS_write p n fs q _ h (Or.inr (Or.inl hq))

theorem fileStep_inv (cfg : CompileCfg) (orc : FsOracle) (doFile : Bool) (out : String)
    (st : LoggerState) (fs : FS) (p : String)
    (hpath : st.logFilePath = p) (h : goodFS p cfg.rotateBackups fs) :
    (fileStep cfg orc doFile out st fs).1.logFilePath = p
    ∧ goodFS p cfg.rotateBackups (fileStep cfg orc doFile out st fs).2.1 := by
  refine ⟨by rw [fileStep_path]; exact hpath, ?_⟩
  unfold fileStep
  split
  · split
    · dsimp only
      by_cases hmod : ((st.lineCount + 1) % cfg.checkInterval == 0) = true
      · rw [if_pos hmod]
        by_cases h2 : (rotateIfNeeded cfg orc { st with lineCount := st.lineCount + 1 } fs).1.logFileOpen = true
        · rw [if_pos h2]
          dsimp only
          exact goodFS_append p cfg.rotateBackups _ _ _
            (by rw [rotate_proj_path]; exact hpath)
            (goodFS_rotate cfg orc _ fs p hpath h)
        · rw [if_neg h2]
          exact goodFS_rotate cfg orc _ fs p hpath h
      · rw [if_neg hmod]
        by_cases h2 : (({ st with lineCount := st.lineCount + 1 }, fs) : LoggerState × FS).1.logFileOpen = true
        · rw [if_pos h2]
          dsimp only
          exact goodFS_append p cfg.rotateBackups fs st.logFilePath _ hpath h
        · rw [if_neg h2]
          exact h
    · exact h
  · exact h

theorem submit_inv (cfg : CompileCfg) (orc : FsOracle) (p : String) :
    ∀ (fuel : Nat) (st : LoggerState) (fs : FS) (level : LogLevel)
      (func fileArg : Option String) (line : Int) (msg ts tid : String) (hT : Bool),
    st.logFilePath = p → goodFS p cfg.rotateBackups fs →
    (submitAux cfg orc fuel st fs level func fileArg line msg ts tid hT).1.logFilePath = p
    ∧ goodFS p cfg.rotateBackups
        (submitAux cfg orc fuel st fs level func fileArg line msg ts tid hT).2.1 := by
  intro fuel
  induction fuel with
  | zero =>
    intro st fs level func fileArg line msg ts tid hT hpath h
    have hfi := fileStep_inv cfg orc st.fileOutput
      (formatLine level func fileArg line msg st.includeThreadId ts tid) st fs p hpath h
    unfold submitAux
    rcases hch : st.customHandler with _ | hh
    · simpa [hch] using hfi
    · cases hin : st.inHandler
      · simpa [hch, hin] using hfi
      · simpa [hch, hin] using hfi
  | succ n ih =>
    intro st fs level func fileArg line msg ts tid hT hpath h
    unfold submitAux
    rcases hch : st.customHandler with _ | hh
    · simpa [hch] using fileStep_inv cfg orc st.fileOutput
        (formatLine level func fileArg line msg st.includeThreadId ts tid) st fs p hpath h
    · cases hin : st.inHandler
      · have hrl : ∀ cs (st0 : LoggerState) (fs0 : FS),
            st0.logFilePath = p → goodFS p cfg.rotateBackups fs0 →
            (runList (fun st1 fs1 c =>
              if loggy_enabled cfg c.level = false then (st1, fs1, [])
              else if c.level.toNat < st1.runtimeMinLvl.toNat then (st1, fs1, [])
              else submitAux cfg orc n st1 fs1 c.level (some c.origin) none 0 c.msg c.ts c.tid false)
              cs st0 fs0).1.logFilePath = p
            ∧ goodFS p cfg.rotateBackups
              (runList (fun st1 fs1 c =>
                if loggy_enabled cfg c.level = false then (st1, fs1, [])
                else if c.level.toNat < st1.runtimeMinLvl.toNat then (st1, fs1, [])
                else submitAux cfg orc n st1 fs1 c.level (some c.origin) none 0 c.msg c.ts c.tid false)
                cs st0 fs0).2.1 := by
          intro cs st0 fs0 h0 hg0
          refine runList_inv (fun s f => s.logFilePath = p ∧ goodFS p cfg.rotateBackups f)
            (fun st1 fs1 c =>
              if loggy_enabled cfg c.level = false then (st1, fs1, [])
              else if c.level.toNat < st1.runtimeMinLvl.toNat then (st1, fs1, [])
              else submitAux cfg orc n st1 fs1 c.level (some c.origin) none 0 c.msg c.ts c.tid false)
            ?_ cs st0 fs0 ⟨h0, hg0⟩
          intro st1 fs1 c hP
          dsimp only
          split
          · exact hP
          split
          · exact hP
          · exact ih st1 fs1 c.level (some c.origin) none 0 c.msg c.ts c.tid false hP.1 hP.2
        have hr := hrl (hh (formatLine level func fileArg line msg st.includeThreadId ts tid))
          { st with inHandler := true } fs hpath h
        have hfi := fileStep_inv cfg orc st.fileOutput
          (formatLine level func fileArg line msg st.includeThreadId ts tid)
          { (runList (fun st1 fs1 c =>
              if loggy_enabled cfg c.level = false then (st1, fs1, [])
              else if c.level.toNat < st1.runtimeMinLvl.toNat then (st1, fs1, [])
              else submitAux cfg orc n st1 fs1 c.level (some c.origin) none 0 c.msg c.ts c.tid false)
              (hh (formatLine level func fileArg line msg st.includeThreadId ts tid))
              { st with inHandler := true } fs).1 with inHandler := false }
          (runList (fun st1 fs1 c =>
              if loggy_enabled cfg c.level = false then (st1, fs1, [])
              else if c.level.toNat < st1.runtimeMinLvl.toNat then (st1, fs1, [])
              else submitAux cfg orc n st1 fs1 c.level (some c.origin) none 0 c.msg c.ts c.tid false)
              (hh (formatLine level func fileArg line msg st.includeThreadId ts tid))
              { st with inHandler := true } fs).2.1
          p (by simpa using hr.1) hr.2
        simpa [hch, hin] using hfi
      · simpa [hch, hin] using fileStep_inv cfg orc st.fileOutput
          (formatLine level func fileArg line msg st.includeThreadId ts tid) st fs p hpath h

theorem log_inv (cfg : CompileCfg) (orc : FsOracle) (p : String) (st : LoggerState) (fs : FS)
    (level : LogLevel) (func : Option String) (msg : String) (args : List String)
    (ts tid : String) (hT : Bool)
    (hpath : st.logFilePath = p) (h : goodFS p cfg.rotateBackups fs) :
    (log cfg orc st fs level func msg args ts tid hT).1.logFilePath = p
    ∧ goodFS p cfg.rotateBackups (log cfg orc st fs level func msg args ts tid hT).2.1 := by
  unfold log
  split
  · exact ⟨hpath, h⟩
  split
  · exact ⟨hpath, h⟩
  · exact submit_inv cfg orc p 1 st fs level func none 0 _ ts tid hT hpath h

theorem logEx_inv (cfg : CompileCfg) (orc : FsOracle) (p : String) (st : LoggerState) (fs : FS)
    (level : LogLevel) (func file : Option String) (line : Int) (msg : String)
    (args : List String) (ts tid : String) (hT : Bool)
    (hpath : st.logFilePath = p) (h : goodFS p cfg.rotateBackups fs) :
    (logEx cfg orc st fs level func file line msg args ts tid hT).1.logFilePath = p
    ∧ goodFS p cfg.rotateBackups
        (logEx cfg orc st fs level func file line msg args ts tid hT).2.1 := by
  unfold logEx
  split
  · exact ⟨hpath, h⟩
  split
  · exact ⟨hpath, h⟩
  · exact submit_inv cfg orc p 1 st fs level func file line _ ts tid hT hpath h

theorem applyOp_inv (cfg : CompileCfg) (p : String) (op : LogOp) (s : LoggerState × FS)
    (h1 : s.1.logFilePath = p) (h2 : goodFS p cfg.rotateBackups s.2) :
    (applyOp cfg p op s).1.logFilePath = p
    ∧ goodFS p cfg.rotateBackups (applyOp cfg p op s).2 := by
  obtain ⟨st, fs⟩ := s
  cases op <;> (try dsimp only [applyOp])
  case doLog orc level func msg args ts tid hT =>
    exact log_inv cfg orc p st fs level func msg args ts tid hT h1 h2
  case doLogEx orc level func file line msg args ts tid hT =>
    exact logEx_inv cfg orc p st fs level func file line msg args ts tid hT h1 h2
  case doShutdown =>
    refine ⟨?_, h2⟩
    unfold shutdown
    split
    · exact h1
    · exact h1
  case doSetPath ok =>
    constructor
    · show (openLogFile true ok { st with logFilePath := p } fs).1.logFilePath = p
      rw [openLogFile_path]
    · exact goodFS_openLogFile true ok { st with logFilePath := p } fs p cfg.rotateBackups rfl h2
  case doSetLevel l => exact ⟨h1, h2⟩
  case doSetConsole b => exact ⟨h1, h2⟩
  case doSetFile b => exact ⟨h1, h2⟩
  case doSetFlush b => exact ⟨h1, h2⟩
  case doSetTid b => exact ⟨h1, h2⟩
  case doSetFormat f => exact ⟨h1, h2⟩
  case doSetHandler hnew => exact ⟨h1, h2⟩

theorem reach_inv (cfg : CompileCfg) (p : String) :
    ∀ s, Reachable cfg p s →
      s.1.logFilePath = p ∧ goodFS p cfg.rotateBackups s.2 := by
  intro s hr
  induction hr with
  | base ok =>
    constructor
    · show (openLogFile true ok { initLogger with logFilePath := p } emptyFS).1.logFilePath = p
      rw [openLogFile_path]
    · exact goodFS_openLogFile true ok { initLogger with logFilePath := p } emptyFS p
        cfg.rotateBackups rfl (fun q hq => by simp [emptyFS] at hq)
  | step s op hs ih => exact applyOp_inv cfg p op s ih.1 ih.2

theorem goodFS_backup_card (p : String) (n : Nat) (fs : FS) (h : goodFS p n fs)
    (S : Finset String)
    (hS : ∀ q ∈ S, (∃ k, 1 ≤ k ∧ q = backupName p k) ∧ (fs q).isSome = true) :
    S.card ≤ n := by
  have hsub : S ⊆ (Finset.Icc 1 n).image (backupName p) := by
    intro q hq
    obtain ⟨⟨k0, hk0, hq0⟩, hsome⟩ := hS q hq
    rcases h q hsome with hqp | ⟨k, hk1, hk2, he⟩
    · exact absurd (hq0.symm.trans hqp) (backupName_ne p k0)
    · exact Finset.mem_image.2 ⟨k, Finset.mem_Icc.2 ⟨hk1, hk2⟩, he.symm⟩
  calc S.card ≤ ((Finset.Icc 1 n).image (backupName p)).card := Finset.card_le_card hsub
    _ ≤ (Finset.Icc 1 n).card := Finset.card_image_le
    _ = n := by rw [Nat.card_Icc]; omega

theorem shiftSpec_apply_base (p : String) :
    ∀ (i : Nat) (fs : FS), shiftSpec p i fs p = fs p := by
  intro i
  induction i with
  | zero => intro fs; rfl
  | succ i ih =>
    intro fs
    unfold shiftSpec
    rw [ih]
    split
    · have h1 : p ≠ backupName p (Nat.succ i) := (backupName_ne p _).symm
      have h2 : p ≠ backupName p (Nat.succ i + 1) := (backupName_ne p _).symm
      unfold fsRenameP fsRemoveP
      cases hx : FS.write fs (backupName p (Nat.succ i + 1)) none (backupName p (Nat.succ i)) with
      | none =>
        dsimp only
        rw [write_apply_ne _ _ _ _ h2]
      | some c =>
        dsimp only
        rw [write_apply_ne _ _ _ _ h2, write_apply_ne _ _ _ _ h1, write_apply_ne _ _ _ _ h2]
    · rfl

theorem rotate_backup1 (cfg : CompileCfg) (st : LoggerState) (fs : FS)
    (hfo : st.fileOutput = true) (hN : 0 < cfg.rotateBackups)
    (hex : fsExists fs st.logFilePath = true)
    (hsz : cfg.maxLogFileSize < fsSize fs st.logFilePath) :
    (rotateIfNeeded cfg allOk st fs).2 (backupName st.logFilePath 1)
      = fs st.logFilePath := by
  rw [rotate_allOk_eq cfg st fs hfo hN]
  unfold rotateSpec
  rw [if_neg (by simp [hex]), if_neg (by omega)]
  dsimp only
  have hb1 : backupName st.logFilePath 1 ≠ st.logFilePath := backupName_ne _ _
  obtain ⟨c, hc⟩ := Option.isSome_iff_exists.1 (by simpa [fsExists] using hex)
  rw [write_apply_ne _ _ _ _ hb1]
  have hsrcval : FS.write (shiftSpec st.logFilePath (cfg.rotateBackups - 1) fs)
      (backupName st.logFilePath 1) none st.logFilePath = some c := by
    rw [write_apply_ne _ _ _ _ (Ne.symm hb1), shiftSpec_apply_base, hc]
  unfold fsRenameP fsRemoveP
  rw [hsrcval]
  simp [FS.write_apply, hc]

theorem str_append_empty (s : String) : s ++ "" = s := by simp

theorem formatLine_eq (level : LogLevel) (func fileArg : Option String) (line : Int)
    (msg : String) (includeTid : Bool) (ts tid : String) :
    formatLine level func fileArg line msg includeTid ts tid
      = ts ++ " [" ++ levelToStr level ++ "]"
        ++ (if includeTid then " [T:" ++ tid ++ "]" else "")
        ++ (if cstrPresent fileArg then
              " [" ++ fileArg.getD "" ++ ":" ++ toString line ++ "]"
            else "")
        ++ (if cstrPresent func then " " ++ func.getD "" ++ " -> " else " ")
        ++ msg := by
  unfold formatLine
  by_cases h1 : includeTid = true <;>
    by_cases h2 : cstrPresent fileArg = true <;>
      by_cases h3 : cstrPresent func = true
  all_goals try simp only [Bool.not_eq_true] at h1
  all_goals try simp only [Bool.not_eq_true] at h2
  all_goals try simp only [Bool.not_eq_true] at h3
  all_goals simp only [h1, h2, h3, Bool.false_eq_true, if_true, if_false,
    String.append_assoc, String.append_empty, String.empty_append]

theorem formatLine_no_newline (level : LogLevel) (func fileArg : Option String) (line : Int)
    (msg : String) (includeTid : Bool) (ts tid : String)
    (hmsg : msg.data.getLast? ≠ some '\n') :
    (formatLine level func fileArg line msg includeTid ts tid).data.getLast?
      ≠ some '\n' := by
  unfold formatLine
  dsimp only
  by_cases hm : msg = ""
  · subst hm
    rw [str_append_empty]
    by_cases h3 : cstrPresent func = true
    · rw [if_pos h3]
      rw [getLast_str_append _ " -> " (by decide)]
      decide
    · rw [if_neg h3]
      rw [getLast_str_append _ " " (by decide)]
      decide
  · rw [getLast_str_append _ msg hm]
    exact hmsg

theorem loggy_enabled_default (level : LogLevel) :
    loggy_enabled defaultCompileCfg level = true := by
  simp [loggy_enabled, defaultCompileCfg]

end Logger


/- Claim theorems. -/

/-- C1: with the default compile-time configuration, a log or logEx submission whose
level is strictly below the configured runtime minimum produces no observable sink
output (no console write, no file write, no handler invocation) and leaves state and
filesystem untouched; a submission at or above the runtime minimum delivers exactly
one formatted line to each enabled sink — newline-terminated on the console and file
sinks — containing the supplied message text verbatim as a substring. -/
theorem C1_runtime_level_filter
    (orc : Logger.FsOracle) (st : Logger.LoggerState) (fs : FS) (level : LogLevel)
    (func file : Option String) (line : Int) (msg : String) (args : List String)
    (ts tid : String) (hT : Bool)
    (hin : st.inHandler = false) (hok : orc.reopenOk = true) :
    (level.toNat < st.runtimeMinLvl.toNat →
      Logger.log defaultCompileCfg orc st fs level func msg args ts tid hT = (st, fs, [])
      ∧ Logger.logEx defaultCompileCfg orc st fs level func file line msg args ts tid hT
          = (st, fs, []))
    ∧ (st.runtimeMinLvl.toNat ≤ level.toNat →
      ∃ out : String,
        (∃ a b, out = a ++ msg ++ b)
        ∧ consoleLines
            (Logger.log defaultCompileCfg orc st fs level func msg args ts tid hT).2.2
            = (if st.consoleOutput then [out ++ "\n"] else [])
        ∧ fileLines
            (Logger.log defaultCompileCfg orc st fs level func msg args ts tid hT).2.2
            = (if st.fileOutput && st.logFileOpen then [out ++ "\n"] else [])
        ∧ handlerLines
            (Logger.log defaultCompileCfg orc st fs level func msg args ts tid hT).2.2
            = (if st.customHandler.isSome then [out] else [])) := by
  constructor
  · intro hlt
    constructor
    · unfold Logger.log
      rw [if_neg (show ¬((!loggy_enabled defaultCompileCfg level) = true) by
        simp [Logger.loggy_enabled_default])]
      rw [if_pos hlt]
    · unfold Logger.logEx
      rw [if_neg (show ¬((!loggy_enabled defaultCompileCfg level) = true) by
        simp [Logger.loggy_enabled_default])]
      rw [if_pos hlt]
  · intro hge
    refine ⟨Logger.formatLine level func none 0 (msg ++ String.join args)
      st.includeThreadId ts tid, ?_, ?_, ?_, ?_⟩
    · refine ⟨ts ++ " [" ++ Logger.levelToStr level ++ "]"
        ++ (if st.includeThreadId then " [T:" ++ tid ++ "]" else "")
        ++ (if Logger.cstrPresent none then
              " [" ++ (none : Option String).getD "" ++ ":" ++ toString (0 : Int) ++ "]"
            else "")
        ++ (if Logger.cstrPresent func then " " ++ func.getD "" ++ " -> " else " "),
        String.join args, ?_⟩
      rw [Logger.formatLine_eq, ← String.append_assoc]
    · unfold Logger.log
      rw [if_neg (show ¬((!loggy_enabled defaultCompileCfg level) = true) by
        simp [Logger.loggy_enabled_default])]
      rw [if_neg (not_lt.2 hge)]
      exact Logger.submit_consoleLines defaultCompileCfg orc 1 st fs level func none 0 _ ts tid hT
    · unfold Logger.log
      rw [if_neg (show ¬((!loggy_enabled defaultCompileCfg level) = true) by
        simp [Logger.loggy_enabled_default])]
      rw [if_neg (not_lt.2 hge)]
      exact Logger.submit_fileLines defaultCompileCfg orc hok 1 st fs level func none 0 _ ts tid hT
    · unfold Logger.log
      rw [if_neg (show ¬((!loggy_enabled defaultCompileCfg level) = true) by
        simp [Logger.loggy_enabled_default])]
      rw [if_neg (not_lt.2 hge)]
      exact Logger.submit_handlerLines defaultCompileCfg orc 0 st fs level func none 0 _ ts tid hT hin

/-- C1 witness: the filter drops an INFO submission under a WARN runtime minimum, and
delivers an INFO submission under the default DEBUG minimum to every sink. -/
theorem C1_witness :
    (Logger.log defaultCompileCfg Logger.allOk stWmin fsW LogLevel.INFO (some "f")
        "hello" [] "TS" "7" false = (stWmin, fsW, [])
      ∧ Logger.logEx defaultCompileCfg Logger.allOk stWmin fsW LogLevel.INFO (some "f")
          (some "a.cpp") 3 "hello" [] "TS" "7" false = (stWmin, fsW, []))
    ∧ (∃ out : String,
        (∃ a b, out = a ++ "hello" ++ b)
        ∧ consoleLines
            (Logger.log defaultCompileCfg Logger.allOk stW fsW LogLevel.INFO (some "f")
              "hello" [] "TS" "7" false).2.2
            = (if stW.consoleOutput then [out ++ "\n"] else [])
        ∧ fileLines
            (Logger.log defaultCompileCfg Logger.allOk stW fsW LogLevel.INFO (some "f")
              "hello" [] "TS" "7" false).2.2
            = (if stW.fileOutput && stW.logFileOpen then [out ++ "\n"] else [])
        ∧ handlerLines
            (Logger.log defaultCompileCfg Logger.allOk stW fsW LogLevel.INFO (some "f")
              "hello" [] "TS" "7" false).2.2
            = (if stW.customHandler.isSome then [out] else [])) :=
  ⟨(C1_runtime_level_filter Logger.allOk stWmin fsW LogLevel.INFO (some "f")
      (some "a.cpp") 3 "hello" [] "TS" "7" false rfl rfl).1 (by decide),
   (C1_runtime_level_filter Logger.allOk stW fsW LogLevel.INFO (some "f")
      (some "a.cpp") 3 "hello" [] "TS" "7" false rfl rfl).2 (by decide)⟩

/-- C9: a submission whose level is below the compile-time minimum LOGGY_MIN_LEVEL is
always dropped by log and logEx, for every runtime configuration, even when the
runtime minimum is lower than the compile-time one. -/
theorem C9_compile_time_filter
    (cfg : CompileCfg) (orc : Logger.FsOracle) (st : Logger.LoggerState) (fs : FS)
    (level : LogLevel) (func file : Option String) (line : Int) (msg : String)
    (args : List String) (ts tid : String) (hT : Bool)
    (h : level.toNat < cfg.minLevel) :
    Logger.log cfg orc st fs level func msg args ts tid hT = (st, fs, [])
    ∧ Logger.logEx cfg orc st fs level func file line msg args ts tid hT = (st, fs, []) := by
  have hen : loggy_enabled cfg level = false := by
    simp only [loggy_enabled, decide_eq_false_iff_not]
    omega
  constructor
  · unfold Logger.log
    rw [if_pos (by simp [hen])]
  · unfold Logger.logEx
    rw [if_pos (by simp [hen])]

/-- C9 witness: with LOGGY_MIN_LEVEL = 2 (WARN), an INFO submission is dropped even
though the runtime minimum is DEBUG. -/
theorem C9_witness :
    Logger.log cfg9 Logger.allOk stW fsW LogLevel.INFO (some "f") "m" [] "TS" "7" false
      = (stW, fsW, [])
    ∧ Logger.logEx cfg9 Logger.allOk stW fsW LogLevel.INFO (some "f") (some "a.cpp") 3
        "m" [] "TS" "7" false = (stW, fsW, []) :=
  C9_compile_time_filter cfg9 Logger.allOk stW fsW LogLevel.INFO (some "f") (some "a.cpp")
    3 "m" [] "TS" "7" false (by decide)

/-- C10: a default-constructed Logger has runtime minimum DEBUG, console output on,
file output on, auto-flush off, thread-id inclusion on, timestamp format
"%Y-%m-%d %H:%M:%S", no custom handler and no open log file, and on such a logger a
log call changes no file: the filesystem is untouched and no file-sink write occurs. -/
theorem C10_initial_defaults
    (cfg : CompileCfg) (orc : Logger.FsOracle) (fs : FS) (level : LogLevel)
    (func : Option String) (msg : String) (args : List String) (ts tid : String)
    (hT : Bool) :
    Logger.initLogger.runtimeMinLvl = LogLevel.DEBUG
    ∧ Logger.initLogger.consoleOutput = true
    ∧ Logger.initLogger.fileOutput = true
    ∧ Logger.initLogger.autoFlush = false
    ∧ Logger.initLogger.includeThreadId = true
    ∧ Logger.initLogger.timeFormat = "%Y-%m-%d %H:%M:%S"
    ∧ Logger.initLogger.customHandler = none
    ∧ Logger.initLogger.logFileOpen = false
    ∧ (Logger.log cfg orc Logger.initLogger fs level func msg args ts tid hT).2.1 = fs
    ∧ fileLines (Logger.log cfg orc Logger.initLogger fs level func msg args ts tid hT).2.2
        = [] := by
  refine ⟨rfl, rfl, rfl, rfl, rfl, rfl, rfl, rfl, ?_, ?_⟩
  · unfold Logger.log
    split
    · rfl
    split
    · rfl
    · exact (Logger.submit_closed cfg orc 1 Logger.initLogger fs level func none 0 _ ts tid
        hT rfl).2.1
  · unfold Logger.log
    split
    · rfl
    split
    · rfl
    · exact (Logger.submit_closed cfg orc 1 Logger.initLogger fs level func none 0 _ ts tid
        hT rfl).2.2


namespace Logger

theorem shutdown_eq (st : LoggerState) :
    shutdown st = { st with logFileOpen := false } := by
  unfold shutdown
  split
  · rfl
  · next h =>
    have hfalse : st.logFileOpen = false := by simpa using h
    calc st = { st with logFileOpen := st.logFileOpen } := rfl
      _ = { st with logFileOpen := false } := by rw [hfalse]

theorem submit_handlerLines1 (cfg : CompileCfg) (orc : FsOracle)
    (st : LoggerState) (fs : FS) (level : LogLevel) (func fileArg : Option String)
    (line : Int) (msg ts tid : String) (hT : Bool) (hin : st.inHandler = false) :
    handlerLines (submitAux cfg orc 1 st fs level func fileArg line msg ts tid hT).2.2
      = if st.customHandler.isSome then
          [formatLine level func fileArg line msg st.includeThreadId ts tid]
        else [] :=
  submit_handlerLines cfg orc 0 st fs level func fileArg line msg ts tid hT hin

end Logger

/-- C2 (amended, loggy.hpp behavior): in Logger::submit a registered custom handler
augments rather than replaces the built-in sinks: the handler receives the formatted
line and the console sink (console-enabled) and the file sink (file-enabled and open)
each also receive the same line, newline-terminated. -/
theorem C2_handler_augments_sinks
    (orc : Logger.FsOracle) (st : Logger.LoggerState) (fs : FS) (level : LogLevel)
    (func : Option String) (msg : String) (args : List String) (ts tid : String)
    (hT : Bool)
    (hch : st.customHandler.isSome = true) (hin : st.inHandler = false)
    (hcon : st.consoleOutput = true) (hfo : st.fileOutput = true)
    (hopen : st.logFileOpen = true) (hok : orc.reopenOk = true)
    (hge : st.runtimeMinLvl.toNat ≤ level.toNat) :
    ∃ out : String,
      handlerLines
        (Logger.log defaultCompileCfg orc st fs level func msg args ts tid hT).2.2
        = [out]
      ∧ consoleLines
          (Logger.log defaultCompileCfg orc st fs level func msg args ts tid hT).2.2
          = [out ++ "\n"]
      ∧ fileLines
          (Logger.log defaultCompileCfg orc st fs level func msg args ts tid hT).2.2
          = [out ++ "\n"] := by
  refine ⟨Logger.formatLine level func none 0 (msg ++ String.join args)
    st.includeThreadId ts tid, ?_, ?_, ?_⟩
  · unfold Logger.log
    rw [if_neg (show ¬((!loggy_enabled defaultCompileCfg level) = true) by
      simp [Logger.loggy_enabled_default])]
    rw [if_neg (not_lt.2 hge)]
    rw [Logger.submit_handlerLines1 defaultCompileCfg orc st fs level func none 0
      (msg ++ String.join args) ts tid hT hin]
    rw [if_pos hch]
  · unfold Logger.log
    rw [if_neg (show ¬((!loggy_enabled defaultCompileCfg level) = true) by
      simp [Logger.loggy_enabled_default])]
    rw [if_neg (not_lt.2 hge)]
    rw [Logger.submit_consoleLines defaultCompileCfg orc 1 st fs level func none 0
      (msg ++ String.join args) ts tid hT]
    rw [if_pos hcon]
  · unfold Logger.log
    rw [if_neg (show ¬((!loggy_enabled defaultCompileCfg level) = true) by
      simp [Logger.loggy_enabled_default])]
    rw [if_neg (not_lt.2 hge)]
    rw [Logger.submit_fileLines defaultCompileCfg orc hok 1 st fs level func none 0
      (msg ++ String.join args) ts tid hT]
    rw [if_pos (by rw [hfo, hopen]; rfl)]

/-- C2 witness: at a concrete state with handler, console and open file, an INFO
submission reaches all three sinks with the same line. -/
theorem C2_witness :
    ∃ out : String,
      handlerLines
        (Logger.log defaultCompileCfg Logger.allOk stW fsW LogLevel.INFO (some "f")
          "hello" [] "TS" "7" false).2.2 = [out]
      ∧ consoleLines
          (Logger.log defaultCompileCfg Logger.allOk stW fsW LogLevel.INFO (some "f")
            "hello" [] "TS" "7" false).2.2 = [out ++ "\n"]
      ∧ fileLines
          (Logger.log defaultCompileCfg Logger.allOk stW fsW LogLevel.INFO (some "f")
            "hello" [] "TS" "7" false).2.2 = [out ++ "\n"] :=
  C2_handler_augments_sinks Logger.allOk stW fsW LogLevel.INFO (some "f") "hello" []
    "TS" "7" false rfl rfl rfl rfl rfl rfl (by decide)

/-- C2 counterexample: in the legacy variant src/Loggy.h, with console output enabled
and a custom handler registered, an INFO submission reaches the handler but neither
the console nor the file sink: the handler replaces the built-in sinks, refuting the
claim as stated for the cited Loggy.h Logger::log. -/
theorem C2_counterexample :
    stH.consoleOutput = true
    ∧ stH.hasCustomHandler = true
    ∧ handlerLines (LoggyH.log stH emptyFS LogLevel.INFO "g" "x" "TS" "7").2.2
        = [LoggyH.formatLogMessage LogLevel.INFO "g" "x" "TS" "7"]
    ∧ consoleLines (LoggyH.log stH emptyFS LogLevel.INFO "g" "x" "TS" "7").2.2 = []
    ∧ fileLines (LoggyH.log stH emptyFS LogLevel.INFO "g" "x" "TS" "7").2.2 = [] :=
  ⟨rfl, rfl, rfl, rfl, rfl⟩

/-- C3: the custom handler is never re-entered from within itself: a submission made
while the calling context is already inside a handler invocation produces no handler
invocation among its events (the nested invocation is dropped, not queued), and the
nested events recorded inside any handler invocation contain no handler invocation. -/
theorem C3_reentrancy_guard
    (cfg : CompileCfg) (orc : Logger.FsOracle) (fuel : Nat) (st : Logger.LoggerState)
    (fs : FS) (level : LogLevel) (func fileArg : Option String) (line : Int)
    (msg ts tid : String) (hT : Bool) :
    (st.inHandler = true →
      ∀ e ∈ (Logger.submitAux cfg orc fuel st fs level func fileArg line
          msg ts tid hT).2.2,
        e.isHandlerCall = false)
    ∧ (∀ l ne r,
        SinkEvent.handlerCall l ne r
            ∈ (Logger.submitAux cfg orc fuel st fs level func fileArg line
                msg ts tid hT).2.2 →
        ∀ e ∈ ne, e.isHandlerCall = false) :=
  ⟨fun hin => Logger.submit_noHC cfg orc fuel st fs level func fileArg line msg ts tid
      hT hin,
   fun l ne r hm => Logger.submit_nested_noHC cfg orc fuel st fs level func fileArg
      line msg ts tid hT l ne r hm⟩

/-- C3 witness: a submission from inside a handler produces no handler invocation, and
the nested events of a concrete handler invocation contain none either. -/
theorem C3_witness :
    (∀ e ∈ (Logger.submitAux defaultCompileCfg Logger.allOk 1 stWin fsW LogLevel.INFO
        (some "f") none 0 "m" "TS" "7" false).2.2,
      e.isHandlerCall = false)
    ∧ (∀ e ∈ [SinkEvent.consoleWrite (outW2 ++ "\n"), SinkEvent.fileWrite (outW2 ++ "\n")],
        e.isHandlerCall = false) := by
  constructor
  · exact (C3_reentrancy_guard defaultCompileCfg Logger.allOk 1 stWin fsW LogLevel.INFO
      (some "f") none 0 "m" "TS" "7" false).1 rfl
  · have hevts : (Logger.submitAux defaultCompileCfg Logger.allOk 1 stW fsW LogLevel.INFO
        (some "f") none 0 "m" "TS" "7" false).2.2
        = [SinkEvent.handlerCall outW1
            [SinkEvent.consoleWrite (outW2 ++ "\n"), SinkEvent.fileWrite (outW2 ++ "\n")]
            false,
          SinkEvent.consoleWrite (outW1 ++ "\n"), SinkEvent.fileWrite (outW1 ++ "\n")] := rfl
    exact (C3_reentrancy_guard defaultCompileCfg Logger.allOk 1 stW fsW LogLevel.INFO
      (some "f") none 0 "m" "TS" "7" false).2 outW1
      [SinkEvent.consoleWrite (outW2 ++ "\n"), SinkEvent.fileWrite (outW2 ++ "\n")] false
      (by rw [hevts]; exact List.mem_cons_self _ _)

/-- C4: when triggered with file output on and a positive backup count, the rotation
check performs exactly the specified steps: skip when the active file is absent or its
size is at or below the budget, otherwise close the active file, shift backups i from
N-1 down to 1 (remove path.(i+1), rename path.i to path.(i+1) when path.i exists),
remove path.1, rename the active file to path.1, reopen truncated and reset the line
counter; the default budget is 5 MiB and the default backup count is 3. -/
theorem C4_rotation_algorithm (cfg : CompileCfg) (st : Logger.LoggerState) (fs : FS)
    (hfo : st.fileOutput = true) (hN : 0 < cfg.rotateBackups) :
    Logger.rotateIfNeeded cfg Logger.allOk st fs = Logger.rotateSpec cfg st fs
    ∧ defaultCompileCfg.maxLogFileSize = 5 * 1024 * 1024
    ∧ defaultCompileCfg.rotateBackups = 3 :=
  ⟨Logger.rotate_allOk_eq cfg st fs hfo hN, rfl, rfl⟩

/-- C4 witness: the rotation equality instantiated at a concrete over-budget state. -/
theorem C4_witness :
    Logger.rotateIfNeeded cfgW Logger.allOk stR fsR = Logger.rotateSpec cfgW stR fsR
    ∧ defaultCompileCfg.maxLogFileSize = 5 * 1024 * 1024
    ∧ defaultCompileCfg.rotateBackups = 3 :=
  C4_rotation_algorithm cfgW stR fsR rfl (by decide)

/-- C5: in every state reachable from a fresh logger pointed at path p, at most N
backup files (N = rotateBackups) exist among the numbered backups of p; and when a
rotation actually rotates, path.1 afterwards holds exactly the content the active
file held immediately before the rotation. -/
theorem C5_backup_bound_and_content (cfg : CompileCfg) (p : String) :
    (∀ s, Logger.Reachable cfg p s → ∀ S : Finset String,
        (∀ q ∈ S, (∃ k, 1 ≤ k ∧ q = Logger.backupName p k) ∧ (s.2 q).isSome = true) →
        S.card ≤ cfg.rotateBackups)
    ∧ (∀ (st : Logger.LoggerState) (fs : FS), st.fileOutput = true →
        0 < cfg.rotateBackups →
        fsExists fs st.logFilePath = true →
        cfg.maxLogFileSize < fsSize fs st.logFilePath →
        (Logger.rotateIfNeeded cfg Logger.allOk st fs).2
            (Logger.backupName st.logFilePath 1)
          = fs st.logFilePath) := by
  constructor
  · intro s hr S hS
    exact Logger.goodFS_backup_card p cfg.rotateBackups s.2
      (Logger.reach_inv cfg p s hr).2 S hS
  · intro st fs hfo hN hex hsz
    exact Logger.rotate_backup1 cfg st fs hfo hN hex hsz

/-- C5 witness: the bound instantiated at the base reachable state, and the path.1
content equality at a concrete over-budget filesystem. -/
theorem C5_witness :
    ((∅ : Finset String).card ≤ cfgW.rotateBackups)
    ∧ (Logger.rotateIfNeeded cfgW Logger.allOk stR fsR).2
        (Logger.backupName stR.logFilePath 1) = fsR stR.logFilePath := by
  constructor
  · exact (C5_backup_bound_and_content cfgW "app.log").1 _ (Logger.Reachable.base true) ∅
      (by simp)
  · exact (C5_backup_bound_and_content cfgW "app.log").2 stR fsR rfl (by decide)
      (by decide) (by decide)


/-- C6: shutdown is idempotent; after shutdown every file-sink write is a no-op (the
filesystem is untouched and no file write event occurs) until a new path is set via
setLogPath, which reopens the file sink; the console and handler sinks are unaffected
by shutdown. -/
theorem C6_shutdown_idempotent
    (cfg : CompileCfg) (orc : Logger.FsOracle) (st : Logger.LoggerState) (fs : FS)
    (level : LogLevel) (func : Option String) (msg : String) (args : List String)
    (ts tid : String) (hT : Bool) (p : String)
    (hin : st.inHandler = false) :
    Logger.shutdown (Logger.shutdown st) = Logger.shutdown st
    ∧ (Logger.log cfg orc (Logger.shutdown st) fs level func msg args ts tid hT).2.1 = fs
    ∧ fileLines
        (Logger.log cfg orc (Logger.shutdown st) fs level func msg args ts tid hT).2.2
        = []
    ∧ consoleLines
        (Logger.log cfg orc (Logger.shutdown st) fs level func msg args ts tid hT).2.2
        = consoleLines (Logger.log cfg orc st fs level func msg args ts tid hT).2.2
    ∧ handlerLines
        (Logger.log cfg orc (Logger.shutdown st) fs level func msg args ts tid hT).2.2
        = handlerLines (Logger.log cfg orc st fs level func msg args ts tid hT).2.2
    ∧ (Logger.setLogPath (Logger.shutdown st) fs p true).1.logFileOpen = true := by
  refine ⟨?_, ?_, ?_, ?_, ?_, ?_⟩
  · simp [Logger.shutdown_eq]
  · rw [Logger.shutdown_eq]
    unfold Logger.log
    split
    · rfl
    split
    · rfl
    · exact (Logger.submit_closed cfg orc 1 _ fs level func none 0 _ ts tid hT rfl).2.1
  · rw [Logger.shutdown_eq]
    unfold Logger.log
    split
    · rfl
    split
    · rfl
    · exact (Logger.submit_closed cfg orc 1 _ fs level func none 0 _ ts tid hT rfl).2.2
  · rw [Logger.shutdown_eq]
    unfold Logger.log
    dsimp only
    split
    · rfl
    split
    · rfl
    · rw [Logger.submit_consoleLines, Logger.submit_consoleLines]
  · rw [Logger.shutdown_eq]
    unfold Logger.log
    dsimp only
    split
    · rfl
    split
    · rfl
    · rw [Logger.submit_handlerLines1 cfg orc { st with logFileOpen := false } fs level
          func none 0 (msg ++ String.join args) ts tid hT (by exact hin),
        Logger.submit_handlerLines1 cfg orc st fs level func none 0
          (msg ++ String.join args) ts tid hT hin]
  · rw [Logger.shutdown_eq]
    unfold Logger.setLogPath Logger.openLogFile
    rfl

/-- C6 witness: shutdown idempotence and the no-op file sink at a concrete state. -/
theorem C6_witness :
    Logger.shutdown (Logger.shutdown stW) = Logger.shutdown stW
    ∧ (Logger.log defaultCompileCfg Logger.allOk (Logger.shutdown stW) fsW LogLevel.INFO
        (some "f") "m" [] "TS" "7" false).2.1 = fsW
    ∧ fileLines (Logger.log defaultCompileCfg Logger.allOk (Logger.shutdown stW) fsW
        LogLevel.INFO (some "f") "m" [] "TS" "7" false).2.2 = []
    ∧ consoleLines (Logger.log defaultCompileCfg Logger.allOk (Logger.shutdown stW) fsW
        LogLevel.INFO (some "f") "m" [] "TS" "7" false).2.2
      = consoleLines (Logger.log defaultCompileCfg Logger.allOk stW fsW LogLevel.INFO
          (some "f") "m" [] "TS" "7" false).2.2
    ∧ handlerLines (Logger.log defaultCompileCfg Logger.allOk (Logger.shutdown stW) fsW
        LogLevel.INFO (some "f") "m" [] "TS" "7" false).2.2
      = handlerLines (Logger.log defaultCompileCfg Logger.allOk stW fsW LogLevel.INFO
          (some "f") "m" [] "TS" "7" false).2.2
    ∧ (Logger.setLogPath (Logger.shutdown stW) fsW "b.log" true).1.logFileOpen = true :=
  C6_shutdown_idempotent defaultCompileCfg Logger.allOk stW fsW LogLevel.INFO (some "f")
    "m" [] "TS" "7" false "b.log" rfl

/-- C7: log and logEx never propagate an error to the caller: a handler invocation
that raises is caught and swallowed — the resulting state, filesystem and sink lines
are identical to those of a non-raising invocation — and a filesystem error reported
by the size query during rotation is ignored, leaving state and filesystem unchanged
rather than propagating. -/
theorem C7_errors_swallowed
    (cfg : CompileCfg) (orc : Logger.FsOracle) (fuel : Nat) (st : Logger.LoggerState)
    (fs : FS) (level : LogLevel) (func fileArg : Option String) (line : Int)
    (msg ts tid : String) :
    ((Logger.submitAux cfg orc fuel st fs level func fileArg line msg ts tid true).1
        = (Logger.submitAux cfg orc fuel st fs level func fileArg line msg ts tid false).1
      ∧ (Logger.submitAux cfg orc fuel st fs level func fileArg line msg ts tid true).2.1
        = (Logger.submitAux cfg orc fuel st fs level func fileArg line msg ts tid false).2.1
      ∧ consoleLines
          (Logger.submitAux cfg orc fuel st fs level func fileArg line msg ts tid true).2.2
        = consoleLines
          (Logger.submitAux cfg orc fuel st fs level func fileArg line msg ts tid false).2.2
      ∧ fileLines
          (Logger.submitAux cfg orc fuel st fs level func fileArg line msg ts tid true).2.2
        = fileLines
          (Logger.submitAux cfg orc fuel st fs level func fileArg line msg ts tid false).2.2
      ∧ handlerLines
          (Logger.submitAux cfg orc fuel st fs level func fileArg line msg ts tid true).2.2
        = handlerLines
          (Logger.submitAux cfg orc fuel st fs level func fileArg line msg ts tid false).2.2)
    ∧ (∀ (st2 : Logger.LoggerState) (fs2 : FS), orc.sizeOk = false →
        Logger.rotateIfNeeded cfg orc st2 fs2 = (st2, fs2)) := by
  constructor
  · unfold Logger.submitAux
    rcases hch : st.customHandler with _ | h
    · refine ⟨?_, ?_, ?_, ?_, ?_⟩ <;> simp [hch]
    · cases hin : st.inHandler
      · cases fuel with
        | zero => refine ⟨?_, ?_, ?_, ?_, ?_⟩ <;> simp [hch, hin]
        | succ n => refine ⟨?_, ?_, ?_, ?_, ?_⟩ <;> simp [hch, hin]
      · refine ⟨?_, ?_, ?_, ?_, ?_⟩ <;> simp [hch, hin]
  · intro st2 fs2 hsz
    unfold Logger.rotateIfNeeded
    split
    · rfl
    split
    · rfl
    rw [if_pos (by simp [hsz])]

/-- C7 witness: a raising handler invocation at a concrete state changes nothing
observable, and a failing size query makes the rotation check a no-op. -/
theorem C7_witness :
    ((Logger.submitAux defaultCompileCfg orcBad 1 stW fsW LogLevel.INFO (some "f") none 0
        "m" "TS" "7" true).1
      = (Logger.submitAux defaultCompileCfg orcBad 1 stW fsW LogLevel.INFO (some "f") none 0
          "m" "TS" "7" false).1
      ∧ (Logger.submitAux defaultCompileCfg orcBad 1 stW fsW LogLevel.INFO (some "f") none 0
          "m" "TS" "7" true).2.1
        = (Logger.submitAux defaultCompileCfg orcBad 1 stW fsW LogLevel.INFO (some "f") none 0
            "m" "TS" "7" false).2.1
      ∧ consoleLines (Logger.submitAux defaultCompileCfg orcBad 1 stW fsW LogLevel.INFO
          (some "f") none 0 "m" "TS" "7" true).2.2
        = consoleLines (Logger.submitAux defaultCompileCfg orcBad 1 stW fsW LogLevel.INFO
            (some "f") none 0 "m" "TS" "7" false).2.2
      ∧ fileLines (Logger.submitAux defaultCompileCfg orcBad 1 stW fsW LogLevel.INFO
          (some "f") none 0 "m" "TS" "7" true).2.2
        = fileLines (Logger.submitAux defaultCompileCfg orcBad 1 stW fsW LogLevel.INFO
            (some "f") none 0 "m" "TS" "7" false).2.2
      ∧ handlerLines (Logger.submitAux defaultCompileCfg orcBad 1 stW fsW LogLevel.INFO
          (some "f") none 0 "m" "TS" "7" true).2.2
        = handlerLines (Logger.submitAux defaultCompileCfg orcBad 1 stW fsW LogLevel.INFO
            (some "f") none 0 "m" "TS" "7" false).2.2)
    ∧ Logger.rotateIfNeeded defaultCompileCfg orcBad stR fsR = (stR, fsR) :=
  ⟨(C7_errors_swallowed defaultCompileCfg orcBad 1 stW fsW LogLevel.INFO (some "f")
      none 0 "m" "TS" "7").1,
   (C7_errors_swallowed defaultCompileCfg orcBad 1 stW fsW LogLevel.INFO (some "f")
      none 0 "m" "TS" "7").2 stR fsR rfl⟩

/-- C8: the formatter produces the line as the ordered concatenation of the formatted
timestamp, the level tag, the optional thread-id segment, the optional file:line
segment, the optional origin arrow segment and the message body, each optional segment
present exactly when its flag or field is present; and when the message does not end
in a newline the produced line has no trailing newline. -/
theorem C8_formatter_layout (level : LogLevel) (func fileArg : Option String)
    (line : Int) (msg : String) (includeTid : Bool) (ts tid : String) :
    (Logger.formatLine level func fileArg line msg includeTid ts tid
      = ts ++ " [" ++ Logger.levelToStr level ++ "]"
        ++ (if includeTid then " [T:" ++ tid ++ "]" else "")
        ++ (if Logger.cstrPresent fileArg then
              " [" ++ fileArg.getD "" ++ ":" ++ toString line ++ "]"
            else "")
        ++ (if Logger.cstrPresent func then " " ++ func.getD "" ++ " -> " else " ")
        ++ msg)
    ∧ (msg.data.getLast? ≠ some '\n' →
        (Logger.formatLine level func fileArg line msg includeTid ts tid).data.getLast?
          ≠ some '\n') :=
  ⟨Logger.formatLine_eq level func fileArg line msg includeTid ts tid,
   Logger.formatLine_no_newline level func fileArg line msg includeTid ts tid⟩

/-- C8 witness: the layout equality and the no-trailing-newline property at a concrete
record. -/
theorem C8_witness :
    (Logger.formatLine LogLevel.WARN (some "f") (some "a.cpp") 7 "low disk" true "TS" "9"
      = "TS" ++ " [" ++ Logger.levelToStr LogLevel.WARN ++ "]"
        ++ (if true then " [T:" ++ "9" ++ "]" else "")
        ++ (if Logger.cstrPresent (some "a.cpp") then
              " [" ++ (some "a.cpp").getD "" ++ ":" ++ toString (7 : Int) ++ "]"
            else "")
        ++ (if Logger.cstrPresent (some "f") then " " ++ (some "f").getD "" ++ " -> "
            else " ")
        ++ "low disk")
    ∧ (Logger.formatLine LogLevel.WARN (some "f") (some "a.cpp") 7 "low disk" true "TS"
        "9").data.getLast? ≠ some '\n' :=
  ⟨(C8_formatter_layout LogLevel.WARN (some "f") (some "a.cpp") 7 "low disk" true "TS"
      "9").1,
   (C8_formatter_layout LogLevel.WARN (some "f") (some "a.cpp") 7 "low disk" true "TS"
      "9").2 (by decide)⟩
